import Mathlib

/-!
# Irrigation controller (`irrigation.cpp`)

A shallow embedding of the pump controller: the pin functions on the mapped
GPIO register block, the trigger test, the monotonic delta, the per-pump
scheduler body and the control loop of `main`, followed by theorems about them.

Conventions of the embedding.

* `unsigned int` values are naturals; every `unsigned int` assignment reduces
  modulo `2 ^ 32` explicitly.
* `int`, `long` and `time_t` values are integers; their arithmetic is taken
  exact (signed overflow is undefined in C++ and is outside the model).
* Pin numbers are naturals (a shift by a negative `int` is undefined in C++).
* The volatile register block is a function from word offset to word, together
  with the list of accesses the program has made, oldest first.
* What the program cannot determine itself (the levels read from the level
  register, the wall clock, the monotonic clock, the indeterminate initial
  contents of uninitialised variables) enters as an explicit input.
-/

namespace Irrigation

/-! ## Constants -/

/-- Size of the `triggerTimes` array (`#define TRIGGER_TIMES_MAX 16`). -/
def TRIGGER_TIMES_MAX : Nat := 16

/-- Number of values of an `unsigned int` (32 bits). -/
def UINT_RANGE : Nat := 2 ^ 32

/-- All 32 bits set: the `unsigned int` image of `~0`. -/
def UINT_MAX : Nat := 2 ^ 32 - 1

/-- Word offset of the set register (`*(p.addr + 7)`). -/
def GPIO_SET : Nat := 7

/-- Word offset of the clear register (`*(p.addr + 10)`). -/
def GPIO_CLEAR : Nat := 10

/-- Word offset of the level register (`*(p.addr + 13)`). -/
def GPIO_LEVEL : Nat := 13

/-- Exit-request input pin (`const int PIN_EXIT = 8`). -/
def PIN_EXIT : Nat := 8

/-- Ping input pin (`const int PIN_PING_IN = 25`). -/
def PIN_PING_IN : Nat := 25

/-- Ping output pin (`const int PIN_PING_OUT = 7`). -/
def PIN_PING_OUT : Nat := 7

/-! ## Data model -/

/-- Time of day (`struct Time`). -/
structure Time where
  hour : Int
  min : Int
  sec : Int
  deriving DecidableEq, Repr

/-- Monotonic timestamp or difference (`timespec` of `time.h`). -/
structure Timespec where
  tv_sec : Int
  tv_nsec : Int
  deriving DecidableEq, Repr

/-- One pump: configuration and running state (`struct PumpData`).
`triggerTimes j` is slot `j` of the array; only slots below
`numTriggerTimes` are ever read. -/
structure PumpData where
  pin : Nat
  numTriggerTimes : Nat
  triggerTimes : Nat → Time
  durationMs : Nat
  elapsedMs : Nat
  enabled : Bool

/-- One access of the program to the mapped block, or its release. -/
inductive Access where
  | load (word : Nat)
  | store (word : Nat) (val : Nat)
  | unmap
  deriving DecidableEq, Repr

/-- The mapped register block (`struct Peripheral`): `addr k` is the word at
offset `k`, `trace` the accesses made so far (oldest first), `mapped` whether
the block is still mapped. -/
structure Peripheral where
  addr : Nat → Nat
  trace : List Access
  mapped : Bool

/-- A line written to the console by the scheduler or the loop; `pumpOff`
carries the number `printf` shows for the counter. -/
inductive Msg where
  | pumpOn (i : Nat) (t : Time)
  | pumpOff (i : Nat) (t : Time) (shown : Int)
  | exitSignal
  deriving DecidableEq, Repr

/-! ## Register access -/

/-- Volatile read of word `k`: the value and the block with the access logged. -/
def Peripheral.load (p : Peripheral) (k : Nat) : Nat × Peripheral :=
  (p.addr k, { p with trace := p.trace ++ [Access.load k] })

/-- Volatile write of `v` to word `k`. -/
def Peripheral.store (p : Peripheral) (k v : Nat) : Peripheral :=
  { p with addr := Function.update p.addr k v,
           trace := p.trace ++ [Access.store k v] }

/-- `SetInputPin`: `*pinGroupAddr &= ~(7 << ((pin % 10) * 3))`. -/
def SetInputPin (p : Peripheral) (pin : Nat) : Peripheral :=
  let g := pin / 10
  let r := p.load g
  r.2.store g (r.1 &&& (UINT_MAX ^^^ ((7 <<< ((pin % 10) * 3)) % UINT_RANGE)))

/-- `SetOutputPin`: clear the field, then `*pinGroupAddr |= (1 << ((pin % 10) * 3))`. -/
def SetOutputPin (p : Peripheral) (pin : Nat) : Peripheral :=
  let g := pin / 10
  let r := p.load g
  let p1 := r.2.store g (r.1 &&& (UINT_MAX ^^^ ((7 <<< ((pin % 10) * 3)) % UINT_RANGE)))
  let r1 := p1.load g
  r1.2.store g (r1.1 ||| ((1 <<< ((pin % 10) * 3)) % UINT_RANGE))

/-- `SetPin`: `*(p.addr + 7) = 1 << pin`. -/
def SetPin (p : Peripheral) (pin : Nat) : Peripheral :=
  p.store GPIO_SET ((1 <<< pin) % UINT_RANGE)

/-- `ClearPin`: `*(p.addr + 10) = 1 << pin`. -/
def ClearPin (p : Peripheral) (pin : Nat) : Peripheral :=
  p.store GPIO_CLEAR ((1 <<< pin) % UINT_RANGE)

/-- `ReadPin`: `*(p.addr + 13) & (1 << pin)` converted to `bool`. -/
def ReadPin (p : Peripheral) (pin : Nat) : Bool × Peripheral :=
  let r := p.load GPIO_LEVEL
  (decide ((r.1 &&& ((1 <<< pin) % UINT_RANGE)) ≠ 0), r.2)

/-- `UnmapPeripheral`: the block is released. -/
def UnmapPeripheral (p : Peripheral) : Peripheral :=
  { p with trace := p.trace ++ [Access.unmap], mapped := false }

/-! ## Clock source -/

/-- `IsTimeInRange`: `t` equals `tStart` or `tEnd` field by field. -/
def IsTimeInRange (t tStart tEnd : Time) : Bool :=
  if t.hour = tStart.hour ∧ t.min = tStart.min ∧ t.sec = tStart.sec then true
  else if t.hour = tEnd.hour ∧ t.min = tEnd.min ∧ t.sec = tEnd.sec then true
  else false

/-- The monotonic difference computed in `main` (lines 206-212). -/
def tsDiff (ts tsPrev : Timespec) : Timespec :=
  let d : Timespec := ⟨ts.tv_sec - tsPrev.tv_sec, ts.tv_nsec - tsPrev.tv_nsec⟩
  if d.tv_nsec < 0 then ⟨d.tv_sec - 1, d.tv_nsec + 1000000000⟩ else d

/-- Conversion of a signed value to `unsigned int`. -/
def toUInt (x : Int) : Nat := (x % (UINT_RANGE : Int)).toNat

/-- The number `printf` shows for an `unsigned int` argument under `%d` (lines
221-222): the same 32 bits read as an `int`, so values from `2 ^ 31` on are
shown `2 ^ 32` lower. -/
def printedInt (x : Nat) : Int :=
  if x < 2 ^ 31 then (x : Int) else (x : Int) - 2 ^ 32

/-! ## Pump scheduler -/

/-- What one pass of the scheduler body acts on: the pump's record, the
register block and the console. -/
structure Sched where
  pd : PumpData
  p : Peripheral
  out : List Msg

/-- The trigger loop of `main` (lines 226-235) from index `j` on, with `n`
iterations left (`n = numTriggerTimes - j`): the first slot that passes
`IsTimeInRange` enables the pump, zeroes the counter, sets the pin, prints the
line and leaves the loop. -/
def triggerLoop (i : Nat) (tPrev t : Time) : Nat → Nat → Sched → Sched
  | 0, _, s => s
  | n + 1, j, s =>
    if IsTimeInRange (s.pd.triggerTimes j) tPrev t then
      { pd := { s.pd with enabled := true, elapsedMs := 0 },
        p := SetPin s.p s.pd.pin,
        out := s.out ++ [Msg.pumpOn i t] }
    else triggerLoop i tPrev t n (j + 1) s

/-- The body of the pump loop of `main` for pump `i` (lines 215-236). -/
def pumpBody (i : Nat) (tPrev t : Time) (d : Timespec) (s : Sched) : Sched :=
  if s.pd.enabled then
    let e1 := toUInt ((s.pd.elapsedMs : Int) + d.tv_sec * 1000)
    let e2 := toUInt ((e1 : Int) + Int.tdiv d.tv_nsec 1000000)
    if e2 ≥ s.pd.durationMs then
      { pd := { s.pd with elapsedMs := e2, enabled := false },
        p := ClearPin s.p s.pd.pin,
        out := s.out ++ [Msg.pumpOff i t (printedInt e2)] }
    else
      { s with pd := { s.pd with elapsedMs := e2 } }
  else
    triggerLoop i tPrev t s.pd.numTriggerTimes 0 s

/-- The pump loop of `main` (lines 214-237) over the pump array, `i` being the
index of the first pump of the list. -/
def pumpLoop (tPrev t : Time) (d : Timespec) :
    Nat → List PumpData → Peripheral → List Msg → List PumpData × Peripheral × List Msg
  | _, [], p, out => ([], p, out)
  | i, pd :: rest, p, out =>
    let r := pumpBody i tPrev t d ⟨pd, p, out⟩
    let r2 := pumpLoop tPrev t d (i + 1) rest r.p r.out
    (r.pd :: r2.1, r2.2)

/-! ## Control loop -/

/-- The variables of `main` that live across iterations. -/
structure LoopState where
  pumpData : List PumpData
  p : Peripheral
  t : Time
  ts : Timespec
  out : List Msg

/-- What the outside world supplies to one iteration: the contents of the level
register at the two reads, the wall clock and the monotonic clock. -/
structure Input where
  levExit : Nat
  levPing : Nat
  t : Time
  ts : Timespec

/-- The hardware presents `lev` in the level register (no access of the program). -/
def hwLevel (p : Peripheral) (lev : Nat) : Peripheral :=
  { p with addr := Function.update p.addr GPIO_LEVEL lev }

/-- How an iteration of `while (true)` ends. -/
inductive Flow where
  | next (s : LoopState)
  | exit (s : LoopState)

/-- One iteration of the loop of `main` (lines 189-239). -/
def iteration (inp : Input) (s : LoopState) : Flow :=
  let r := ReadPin (hwLevel s.p inp.levExit) PIN_EXIT
  if r.1 then
    Flow.exit { s with p := r.2, out := s.out ++ [Msg.exitSignal] }
  else
    let r2 := ReadPin (hwLevel r.2 inp.levPing) PIN_PING_IN
    let p2 := if r2.1 then SetPin r2.2 PIN_PING_OUT else ClearPin r2.2 PIN_PING_OUT
    let tPrev := s.t
    let t := inp.t
    let tsPrev := s.ts
    let ts := inp.ts
    let r3 := pumpLoop tPrev t (tsDiff ts tsPrev) 0 s.pumpData p2 s.out
    Flow.next { pumpData := r3.1, p := r3.2.1, t := t, ts := ts, out := r3.2.2 }

/-- The loop of `main` run on the given inputs: the state reached, and whether
the loop was left through `break` (otherwise it is still running when the
inputs end). -/
def loop : List Input → LoopState → LoopState × Bool
  | [], s => (s, false)
  | inp :: rest, s =>
    match iteration inp s with
    | Flow.exit s1 => (s1, true)
    | Flow.next s1 => loop rest s1

/-- The pump array after lines 141-166, written over indeterminate records
`u0` and `u1`. -/
def configure (u0 u1 : PumpData) : List PumpData :=
  [ { u0 with
        pin := 22, numTriggerTimes := 2,
        triggerTimes :=
          Function.update (Function.update u0.triggerTimes 0 ⟨9, 0, 0⟩) 1 ⟨21, 0, 0⟩,
        durationMs := 10 * 1000, enabled := false },
    { u1 with
        pin := 27, numTriggerTimes := 3,
        triggerTimes :=
          Function.update (Function.update
            (Function.update u1.triggerTimes 0 ⟨19, 6, 0⟩) 1 ⟨19, 6, 10⟩) 2 ⟨19, 6, 20⟩,
        durationMs := 5 * 1000, enabled := false } ]

/-- Pin set-up of the pump array (lines 179-182). -/
def setupPumps : List PumpData → Peripheral → Peripheral
  | [], p => p
  | pd :: rest, p => setupPumps rest (ClearPin (SetOutputPin p pd.pin) pd.pin)

/-- Lines 174-186 of `main`: pin set-up and the first monotonic sample `ts0`;
`tInit` is the indeterminate initial content of `t`. -/
def startup (pumpData : List PumpData) (p : Peripheral) (tInit : Time)
    (ts0 : Timespec) : LoopState :=
  let p1 := SetInputPin p PIN_EXIT
  let p2 := SetInputPin p1 PIN_PING_IN
  let p3 := SetOutputPin p2 PIN_PING_OUT
  let p4 := ClearPin p3 PIN_PING_OUT
  { pumpData := pumpData, p := setupPumps pumpData p4, t := tInit, ts := ts0, out := [] }

/-- The pump part of the shutdown sequence (lines 244-246). -/
def clearPumps : List PumpData → Peripheral → Peripheral
  | [], p => p
  | pd :: rest, p => clearPumps rest (ClearPin p pd.pin)

/-- Lines 242-248 of `main`. -/
def shutdown (s : LoopState) : LoopState :=
  { s with p := UnmapPeripheral (clearPumps s.pumpData (ClearPin s.p PIN_PING_OUT)) }

/-- The program: `mapResult` is what `MapPeripheral` yields (`none` on
failure). The result is the exit code with the final state, or `none` while
the loop is still running when the inputs end. -/
def main (mapResult : Option Peripheral) (u0 u1 : PumpData) (tInit : Time)
    (ts0 : Timespec) (inputs : List Input) : Option (Int × Option LoopState) :=
  match mapResult with
  | none => some (1, none)
  | some p =>
    let r := loop inputs (startup (configure u0 u1) p tInit ts0)
    if r.2 then some (0, some (shutdown r.1)) else none

/-! ## Register model for the output levels -/

/-- Level word after one store under the model in which a write to the set
register raises exactly the written bits and a write to the clear register
lowers exactly the written bits; other accesses leave the levels alone. -/
def levelStep (lev : Nat) : Access → Nat
  | Access.store k v =>
    if k = GPIO_SET then (lev ||| v) % UINT_RANGE
    else if k = GPIO_CLEAR then lev &&& (UINT_MAX ^^^ (v % UINT_RANGE))
    else lev
  | _ => lev

/-- Level word after a sequence of accesses, starting from `lev`. -/
def levelAfter (lev : Nat) (tr : List Access) : Nat :=
  tr.foldl levelStep lev

/-! ## Indistinguishable states -/

/-- Two pump records the scheduler cannot tell apart: they agree on everything
it reads (the counter only while enabled, the trigger slots only below
`numTriggerTimes`). -/
def PumpData.sameAs (a b : PumpData) : Prop :=
  a.pin = b.pin ∧ a.numTriggerTimes = b.numTriggerTimes ∧
  (∀ j, j < a.numTriggerTimes → a.triggerTimes j = b.triggerTimes j) ∧
  a.durationMs = b.durationMs ∧ a.enabled = b.enabled ∧
  (a.enabled = true → a.elapsedMs = b.elapsedMs)

/-- Two loop states with indistinguishable pumps, the same samples and the
same console output. -/
def LoopState.sameAs (s s2 : LoopState) : Prop :=
  List.Forall₂ PumpData.sameAs s.pumpData s2.pumpData ∧
  s.t = s2.t ∧ s.ts = s2.ts ∧ s.out = s2.out

/-! ## Concrete values used to evaluate the definitions -/

/-- A mapped block whose words are all zero and that has not been accessed. -/
def blankBlock : Peripheral := ⟨fun _ => 0, [], true⟩

/-- An idle pump on pin 22 with the single trigger 09:00:00 in both of its two
configured slots, duration 10 s and a stale counter of 777. -/
def idlePump : PumpData := ⟨22, 2, fun _ => ⟨9, 0, 0⟩, 10000, 777, false⟩

/-- A running pump on pin 22, duration 10 s, counter `e`. -/
def runningPump (e : Nat) : PumpData := ⟨22, 2, fun _ => ⟨9, 0, 0⟩, 10000, e, true⟩

/-- A running pump whose duration is the largest `unsigned int` and whose
counter is 296 ms short of wrapping around. -/
def nearWrapPump : PumpData :=
  ⟨22, 2, fun _ => ⟨9, 0, 0⟩, 4294967295, 4294967000, true⟩

/-- A running pump on pin 22 whose duration is 3000000000 ms and whose counter
is 400 ms short of it. -/
def longPump : PumpData :=
  ⟨22, 2, fun _ => ⟨9, 0, 0⟩, 3000000000, 2999999600, true⟩

/-- An indeterminate pump record, standing for uninitialised memory. -/
def stalePump : PumpData := ⟨0, 5, fun _ => ⟨9, 0, 0⟩, 0, 777, true⟩

/-- Wall-clock sample of poll `k` of the simulated run: every second from
08:59:59 on is sampled by two consecutive polls. -/
def scenarioWall (k : Nat) : Time :=
  if k / 2 = 0 then ⟨8, 59, 59⟩ else ⟨9, 0, ((k / 2 - 1 : Nat) : Int)⟩

/-- Monotonic sample of poll `k` of the simulated run: 500 ms after the
previous one, the sample taken before the loop being `(100 s, 0 ns)`. -/
def scenarioMono (k : Nat) : Timespec :=
  ⟨100 + (((k + 1) / 2 : Nat) : Int), (((k + 1) % 2 * 500000000 : Nat) : Int)⟩

/-- Inputs of the simulated run: 26 polls from 08:59:59 to 09:00:11, exit and
ping inputs low. -/
def scenarioInputs : List Input :=
  (List.range 26).map fun k => ⟨0, 0, scenarioWall k, scenarioMono k⟩

/-- State of the simulated run after its first `n` polls, started after a
successful mapping with previous sample 08:59:59; `u0` and `u1` are the
indeterminate pump records the schedule is written over, `p0` the block as
mapped. -/
def scenarioRun (u0 u1 : PumpData) (p0 : Peripheral) (n : Nat) : LoopState × Bool :=
  loop (scenarioInputs.take n)
    (startup (configure u0 u1) p0 ⟨8, 59, 59⟩ ⟨100, 0⟩)

/-- The simulated run on fixed indeterminate values. -/
def scenarioAfter (n : Nat) : LoopState × Bool :=
  scenarioRun stalePump stalePump blankBlock n

/-- Console output expected after `n` polls of the simulated run. -/
def scenarioOut (n : Nat) : List Msg :=
  if n < 3 then []
  else if n < 23 then [Msg.pumpOn 0 ⟨9, 0, 0⟩]
  else [Msg.pumpOn 0 ⟨9, 0, 0⟩, Msg.pumpOff 0 ⟨9, 0, 10⟩ 10000]

/-- Enabled flags of the pump array. -/
def enabledFlags (s : LoopState) : List Bool :=
  s.pumpData.map fun pd => pd.enabled

/-- Successive scheduler steps of one pump `i`: each element of the list gives
the previous sample, the current sample and the monotonic delta of one poll. -/
def pumpRun (i : Nat) : List (Time × Time × Timespec) → Sched → Sched
  | [], s => s
  | step :: rest, s => pumpRun i rest (pumpBody i step.1 step.2.1 step.2.2 s)

/-- The level a single access commands on pin `pin`: `some true` for a store
to the set register whose word has the pin's bit, `some false` for a store to
the clear register whose word has the pin's bit, `none` otherwise. -/
def cmdOn (pin : Nat) : Access → Option Bool
  | Access.store k v =>
    if k = GPIO_SET ∧ v.testBit pin = true then some true
    else if k = GPIO_CLEAR ∧ v.testBit pin = true then some false
    else none
  | _ => none

/-- The most recent level commanded on pin `pin` in a trace (oldest access
first), `none` when the trace has no set or clear command on the pin. -/
def lastCmd (pin : Nat) (tr : List Access) : Option Bool :=
  tr.foldl (fun acc a => match cmdOn pin a with
    | some b => some b
    | none => acc) none

/-- The wall clock `sec` seconds after midnight, as `GetLocalTime` delivers it
(hour, minute and second of the local time). -/
def timeOfDay (sec : Nat) : Time :=
  ⟨((sec / 3600 % 24 : Nat) : Int), ((sec / 60 % 60 : Nat) : Int), ((sec % 60 : Nat) : Int)⟩

/-- Wall-clock sample of half-second `k` of a day-long cycle that is at `start`
seconds after midnight at half-second 0: polls are 500 ms apart, so half-seconds
`2 j` and `2 j + 1` sample the same second. -/
def wallSample (start k : Nat) : Time :=
  timeOfDay ((start + k / 2) % 86400)

/-- State of pump `i` after `n` polls taken 500 ms apart: poll `n + 1` has
previous sample `wallSample start (k0 + n)`, current sample
`wallSample start (k0 + n + 1)` and monotonic delta `delta (k0 + n + 1)`. -/
def pollState (i start : Nat) (delta : Nat → Timespec) (k0 : Nat) (s0 : Sched) :
    Nat → Sched
  | 0 => s0
  | n + 1 =>
    pumpBody i (wallSample start (k0 + n)) (wallSample start (k0 + n + 1))
      (delta (k0 + n + 1)) (pollState i start delta k0 s0 n)

/-- A pump on pin 22 with triggers 09:00:00, 09:00:04 and 09:00:09 and a
duration of 5 s, inactive. -/
def threeTriggerPump : PumpData :=
  ⟨22, 3, fun j => if j = 0 then ⟨9, 0, 0⟩ else if j = 1 then ⟨9, 0, 4⟩ else ⟨9, 0, 9⟩,
    5000, 0, false⟩

/-- The delta of every poll of a run polled exactly every 500 ms. -/
def halfSecond : Nat → Timespec := fun _ => ⟨0, 500000000⟩

/-- Run of `threeTriggerPump` started at 09:00:02: polls 1 and 2 sample
09:00:02, polls 3 and 4 sample 09:00:03 and so on; the previous sample of poll 1
is 09:00:01. -/
def threeTriggerRun (n : Nat) : Sched :=
  pollState 0 32401 halfSecond 1 ⟨threeTriggerPump, blankBlock, []⟩ n

/-- The scheduler steps the loop of `main` performs on the given inputs when it
enters with wall-clock sample `t0` and monotonic sample `ts0`: each iteration
passes the previous sample, its own sample and the monotonic difference. -/
def stepsOf (t0 : Time) (ts0 : Timespec) : List Input → List (Time × Time × Timespec)
  | [] => []
  | inp :: rest => (t0, inp.t, tsDiff inp.ts ts0) :: stepsOf inp.t inp.ts rest

/-- The inputs of `n` polls 500 ms apart that follow half-second `k0` of the
cycle `wallSample start`, with monotonic samples `mono k`, exit and ping inputs
low. -/
def pollInputs (start : Nat) (mono : Nat → Timespec) (k0 : Nat) : Nat → List Input
  | 0 => []
  | n + 1 =>
    ⟨0, 0, wallSample start (k0 + 1), mono (k0 + 1)⟩ :: pollInputs start mono (k0 + 1) n

/-! ## Lemmas on the trigger loop -/

theorem IsTimeInRange_iff (t a b : Time) :
    IsTimeInRange t a b = true ↔ t = a ∨ t = b := by
  cases t; cases a; cases b
  simp only [IsTimeInRange, Time.mk.injEq]
  split_ifs <;> simp_all

theorem triggerLoop_miss (i : Nat) (tPrev t : Time) (n : Nat) :
    ∀ (j : Nat) (s : Sched),
      (∀ k, j ≤ k → k < j + n → IsTimeInRange (s.pd.triggerTimes k) tPrev t = false) →
      triggerLoop i tPrev t n j s = s := by
  induction n with
  | zero => intro j s _; rfl
  | succ n ih =>
    intro j s h
    have h0 := h j (le_refl j) (by omega)
    simp only [triggerLoop, h0, Bool.false_eq_true, if_false]
    exact ih (j + 1) s (fun k hk1 hk2 => h k (by omega) (by omega))

theorem triggerLoop_hit (i : Nat) (tPrev t : Time) (n : Nat) :
    ∀ (j : Nat) (s : Sched),
      (∃ k, j ≤ k ∧ k < j + n ∧ IsTimeInRange (s.pd.triggerTimes k) tPrev t = true) →
      triggerLoop i tPrev t n j s =
        { pd := { s.pd with enabled := true, elapsedMs := 0 },
          p := SetPin s.p s.pd.pin,
          out := s.out ++ [Msg.pumpOn i t] } := by
  induction n with
  | zero => intro j s ⟨k, h1, h2, _⟩; omega
  | succ n ih =>
    intro j s ⟨k, h1, h2, h3⟩
    by_cases h0 : IsTimeInRange (s.pd.triggerTimes j) tPrev t = true
    · simp only [triggerLoop, h0, if_true]
    · simp only [triggerLoop, h0, if_false]
      have hne : k ≠ j := fun e => h0 (e ▸ h3)
      exact ih (j + 1) s ⟨k, by omega, by omega, h3⟩

/-- The trigger loop either leaves everything as it was or performs the one
activation. -/
theorem triggerLoop_cases (i : Nat) (tPrev t : Time) (n j : Nat) (s : Sched) :
    (triggerLoop i tPrev t n j s = s ∧
      ∀ k, j ≤ k → k < j + n → IsTimeInRange (s.pd.triggerTimes k) tPrev t = false) ∨
    (triggerLoop i tPrev t n j s =
        { pd := { s.pd with enabled := true, elapsedMs := 0 },
          p := SetPin s.p s.pd.pin,
          out := s.out ++ [Msg.pumpOn i t] } ∧
      ∃ k, j ≤ k ∧ k < j + n ∧ IsTimeInRange (s.pd.triggerTimes k) tPrev t = true) := by
  by_cases h : ∃ k, j ≤ k ∧ k < j + n ∧ IsTimeInRange (s.pd.triggerTimes k) tPrev t = true
  · exact Or.inr ⟨triggerLoop_hit i tPrev t n j s h, h⟩
  · have h2 : ∀ k, j ≤ k → k < j + n →
        IsTimeInRange (s.pd.triggerTimes k) tPrev t = false := by
      intro k h1 h3
      by_contra hc
      exact h ⟨k, h1, h3, by simpa using hc⟩
    exact Or.inl ⟨triggerLoop_miss i tPrev t n j s h2, h2⟩

theorem pumpBody_inactive (i : Nat) (tPrev t : Time) (d : Timespec) (s : Sched)
    (h : s.pd.enabled = false) :
    pumpBody i tPrev t d s = triggerLoop i tPrev t s.pd.numTriggerTimes 0 s := by
  simp [pumpBody, h]

/-! ## Lemmas on the elapsed counter -/

theorem toUInt_natCast (a : Nat) : toUInt (a : Int) = a % UINT_RANGE := by
  unfold toUInt
  rw [← Int.natCast_mod]
  exact Int.toNat_natCast _

/-- A counter value below `2 ^ 31` is shown as it is. -/
theorem printedInt_of_lt (x : Nat) (h : x < 2 ^ 31) : printedInt x = (x : Int) := by
  simp only [printedInt, h, if_true]

/-- The two additions of lines 216-217 on a non-negative delta amount to one
addition modulo `2 ^ 32`. -/
theorem elapsed_update (e : Nat) (s n : Int) (hs : 0 ≤ s) (hn : 0 ≤ n) :
    toUInt ((toUInt ((e : Int) + s * 1000) : Int) + Int.tdiv n 1000000) =
      (e + (s.toNat * 1000 + n.toNat / 1000000)) % UINT_RANGE := by
  obtain ⟨S, rfl⟩ := Int.eq_ofNat_of_zero_le hs
  obtain ⟨N, rfl⟩ := Int.eq_ofNat_of_zero_le hn
  have h1 : ((e : Int) + (S : Int) * 1000) = ((e + S * 1000 : Nat) : Int) := by
    push_cast; ring
  have h2 : Int.tdiv (N : Int) 1000000 = ((N / 1000000 : Nat) : Int) := by
    rw [Int.tdiv_eq_ediv (Int.natCast_nonneg N) (by norm_num)]
    norm_cast
  rw [h1, toUInt_natCast, h2]
  have h3 : (((e + S * 1000) % UINT_RANGE : Nat) : Int) + ((N / 1000000 : Nat) : Int)
      = (((e + S * 1000) % UINT_RANGE + N / 1000000 : Nat) : Int) := by
    push_cast; ring
  rw [h3, toUInt_natCast]
  simp only [Int.toNat_natCast]
  rw [Nat.add_mod, Nat.mod_mod, ← Nat.add_mod, Nat.add_assoc]

/-- The counter value an active pump's step computes (lines 216-217). -/
theorem pumpBody_active_cases (i : Nat) (tPrev t : Time) (d : Timespec) (s : Sched)
    (h : s.pd.enabled = true) :
    (toUInt ((toUInt ((s.pd.elapsedMs : Int) + d.tv_sec * 1000) : Int)
          + Int.tdiv d.tv_nsec 1000000) ≥ s.pd.durationMs ∧
      pumpBody i tPrev t d s =
        { pd := { s.pd with
                    elapsedMs := toUInt ((toUInt ((s.pd.elapsedMs : Int)
                      + d.tv_sec * 1000) : Int) + Int.tdiv d.tv_nsec 1000000),
                    enabled := false },
          p := ClearPin s.p s.pd.pin,
          out := s.out ++ [Msg.pumpOff i t (printedInt (toUInt ((toUInt
                      ((s.pd.elapsedMs : Int) + d.tv_sec * 1000) : Int)
                      + Int.tdiv d.tv_nsec 1000000)))] }) ∨
    (toUInt ((toUInt ((s.pd.elapsedMs : Int) + d.tv_sec * 1000) : Int)
          + Int.tdiv d.tv_nsec 1000000) < s.pd.durationMs ∧
      pumpBody i tPrev t d s =
        { s with pd := { s.pd with
                    elapsedMs := toUInt ((toUInt ((s.pd.elapsedMs : Int)
                      + d.tv_sec * 1000) : Int) + Int.tdiv d.tv_nsec 1000000) } }) := by
  by_cases hc : toUInt ((toUInt ((s.pd.elapsedMs : Int) + d.tv_sec * 1000) : Int)
          + Int.tdiv d.tv_nsec 1000000) ≥ s.pd.durationMs
  · exact Or.inl ⟨hc, by simp only [pumpBody, h, if_true, hc]⟩
  · exact Or.inr ⟨by omega, by simp only [pumpBody, h, if_true, hc, if_false]⟩

/-! ## Lemmas on indistinguishable states -/

theorem pumpBody_sameAs (i : Nat) (x y : Time) (d : Timespec) (a b : PumpData)
    (p p2 : Peripheral) (out : List Msg) (h : a.sameAs b) :
    (pumpBody i x y d ⟨a, p, out⟩).pd.sameAs (pumpBody i x y d ⟨b, p2, out⟩).pd ∧
    (pumpBody i x y d ⟨a, p, out⟩).out = (pumpBody i x y d ⟨b, p2, out⟩).out := by
  obtain ⟨hp, hn, ht, hd, he, hel⟩ := h
  cases hen : a.enabled with
  | false =>
    have hb : b.enabled = false := by rw [← he]; exact hen
    rw [pumpBody_inactive i x y d ⟨a, p, out⟩ hen, pumpBody_inactive i x y d ⟨b, p2, out⟩ hb]
    rcases triggerLoop_cases i x y a.numTriggerTimes 0 ⟨a, p, out⟩ with
      ⟨e1, m1⟩ | ⟨e1, k, _, hk, hit⟩
    · rcases triggerLoop_cases i x y b.numTriggerTimes 0 ⟨b, p2, out⟩ with
        ⟨e2, _⟩ | ⟨_, k2, _, hk2, hit2⟩
      · simp only at e1 e2 ⊢
        rw [e1, e2]
        exact ⟨⟨hp, hn, ht, hd, he, hel⟩, rfl⟩
      · exfalso
        have h1 := m1 k2 (Nat.zero_le _) (by omega)
        simp only at h1 hit2
        rw [ht k2 (by omega), hit2] at h1
        exact absurd h1 (by decide)
    · rcases triggerLoop_cases i x y b.numTriggerTimes 0 ⟨b, p2, out⟩ with
        ⟨_, m2⟩ | ⟨e2, _⟩
      · exfalso
        have h1 := m2 k (Nat.zero_le _) (by omega)
        simp only at h1 hit
        rw [← ht k (by omega), hit] at h1
        exact absurd h1 (by decide)
      · simp only at e1 e2 ⊢
        rw [e1, e2]
        exact ⟨⟨hp, hn, ht, hd, rfl, fun _ => rfl⟩, rfl⟩
  | true =>
    have hb : b.enabled = true := by rw [← he]; exact hen
    have hel2 : a.elapsedMs = b.elapsedMs := hel hen
    rcases pumpBody_active_cases i x y d ⟨a, p, out⟩ hen with ⟨c1, e1⟩ | ⟨c1, e1⟩
    · rcases pumpBody_active_cases i x y d ⟨b, p2, out⟩ hb with ⟨c2, e2⟩ | ⟨c2, e2⟩
      · simp only at e1 e2 ⊢
        rw [e1, e2]
        exact ⟨⟨hp, hn, ht, hd, rfl, fun _ => by simp only [hel2]⟩, by simp only [hel2]⟩
      · exfalso
        simp only at c1 c2
        rw [hel2, hd] at c1
        omega
    · rcases pumpBody_active_cases i x y d ⟨b, p2, out⟩ hb with ⟨c2, e2⟩ | ⟨c2, e2⟩
      · exfalso
        simp only at c1 c2
        rw [hel2, hd] at c1
        omega
      · simp only at e1 e2 ⊢
        rw [e1, e2]
        exact ⟨⟨hp, hn, ht, hd, he, fun _ => by simp only [hel2]⟩, rfl⟩

theorem pumpLoop_sameAs (x y : Time) (d : Timespec) (as bs : List PumpData)
    (h : List.Forall₂ PumpData.sameAs as bs) :
    ∀ (i : Nat) (p p2 : Peripheral) (out : List Msg),
      List.Forall₂ PumpData.sameAs (pumpLoop x y d i as p out).1
        (pumpLoop x y d i bs p2 out).1 ∧
      (pumpLoop x y d i as p out).2.2 = (pumpLoop x y d i bs p2 out).2.2 := by
  induction h with
  | nil => intro i p p2 out; exact ⟨List.Forall₂.nil, rfl⟩
  | cons hab _ ih =>
    intro i p p2 out
    obtain ⟨h1, h2⟩ := pumpBody_sameAs i x y d _ _ p p2 out hab
    simp only [pumpLoop]
    rw [h2]
    obtain ⟨h3, h4⟩ := ih (i + 1) (pumpBody i x y d ⟨_, p, out⟩).p
      (pumpBody i x y d ⟨_, p2, out⟩).p (pumpBody i x y d ⟨_, p2, out⟩).out
    exact ⟨List.Forall₂.cons h1 h3, h4⟩

theorem ReadPin_hwLevel (p : Peripheral) (lev pin : Nat) :
    (ReadPin (hwLevel p lev) pin).1 =
      decide ((lev &&& ((1 <<< pin) % UINT_RANGE)) ≠ 0) := by
  simp only [ReadPin, hwLevel, Peripheral.load, Function.update_same]

theorem loop_sameAs (inputs : List Input) :
    ∀ s s2 : LoopState, s.sameAs s2 →
      (loop inputs s).1.sameAs (loop inputs s2).1 ∧
      (loop inputs s).2 = (loop inputs s2).2 := by
  induction inputs with
  | nil => intro s s2 h; exact ⟨h, rfl⟩
  | cons inp rest ih =>
    intro s s2 h
    obtain ⟨hp, ht, hts, hout⟩ := h
    by_cases hx : decide ((inp.levExit &&& ((1 <<< PIN_EXIT) % UINT_RANGE)) ≠ 0) = true
    · have e1 : (ReadPin (hwLevel s.p inp.levExit) PIN_EXIT).1 = true := by
        rw [ReadPin_hwLevel]; exact hx
      have e2 : (ReadPin (hwLevel s2.p inp.levExit) PIN_EXIT).1 = true := by
        rw [ReadPin_hwLevel]; exact hx
      simp only [loop, iteration, e1, e2, if_true]
      exact ⟨⟨hp, ht, hts, by rw [hout]⟩, trivial⟩
    · have e1 : (ReadPin (hwLevel s.p inp.levExit) PIN_EXIT).1 = false := by
        rw [ReadPin_hwLevel]; simpa using hx
      have e2 : (ReadPin (hwLevel s2.p inp.levExit) PIN_EXIT).1 = false := by
        rw [ReadPin_hwLevel]; simpa using hx
      simp only [loop, iteration, e1, e2, Bool.false_eq_true, if_false]
      apply ih
      rw [ht, hts, hout]
      obtain ⟨h1, h2⟩ := pumpLoop_sameAs s2.t inp.t (tsDiff inp.ts s2.ts) _ _ hp 0
        (if (ReadPin (hwLevel (ReadPin (hwLevel s.p inp.levExit) PIN_EXIT).2 inp.levPing)
              PIN_PING_IN).1 = true
          then SetPin (ReadPin (hwLevel (ReadPin (hwLevel s.p inp.levExit) PIN_EXIT).2
              inp.levPing) PIN_PING_IN).2 PIN_PING_OUT
          else ClearPin (ReadPin (hwLevel (ReadPin (hwLevel s.p inp.levExit) PIN_EXIT).2
              inp.levPing) PIN_PING_IN).2 PIN_PING_OUT)
        (if (ReadPin (hwLevel (ReadPin (hwLevel s2.p inp.levExit) PIN_EXIT).2 inp.levPing)
              PIN_PING_IN).1 = true
          then SetPin (ReadPin (hwLevel (ReadPin (hwLevel s2.p inp.levExit) PIN_EXIT).2
              inp.levPing) PIN_PING_IN).2 PIN_PING_OUT
          else ClearPin (ReadPin (hwLevel (ReadPin (hwLevel s2.p inp.levExit) PIN_EXIT).2
              inp.levPing) PIN_PING_IN).2 PIN_PING_OUT)
        s2.out
      exact ⟨h1, rfl, rfl, h2⟩

theorem configure_sameAs (u0 u1 v0 v1 : PumpData) :
    List.Forall₂ PumpData.sameAs (configure u0 u1) (configure v0 v1) := by
  refine List.Forall₂.cons ⟨rfl, rfl, ?_, rfl, rfl, ?_⟩
    (List.Forall₂.cons ⟨rfl, rfl, ?_, rfl, rfl, ?_⟩ List.Forall₂.nil)
  · intro j hj
    have hj2 : j < 2 := hj
    interval_cases j <;> simp [Function.update]
  · intro h; exact absurd h Bool.false_ne_true
  · intro j hj
    have hj2 : j < 3 := hj
    interval_cases j <;> simp [Function.update]
  · intro h; exact absurd h Bool.false_ne_true

theorem map_enabled_sameAs (as bs : List PumpData)
    (h : List.Forall₂ PumpData.sameAs as bs) :
    as.map (fun pd => pd.enabled) = bs.map (fun pd => pd.enabled) := by
  induction h with
  | nil => rfl
  | cons hab _ ih => simp only [List.map_cons, hab.2.2.2.2.1, ih]

theorem enabledFlags_sameAs (s s2 : LoopState) (h : s.sameAs s2) :
    enabledFlags s = enabledFlags s2 :=
  map_enabled_sameAs _ _ h.1

/-- The simulated run shows the same pump flags, exit flag and console output
whatever the indeterminate values are. -/
theorem scenarioRun_sameAs (u0 u1 : PumpData) (p0 : Peripheral) (n : Nat) :
    enabledFlags (scenarioRun u0 u1 p0 n).1 = enabledFlags (scenarioAfter n).1 ∧
    (scenarioRun u0 u1 p0 n).2 = (scenarioAfter n).2 ∧
    (scenarioRun u0 u1 p0 n).1.out = (scenarioAfter n).1.out := by
  have h0 : (startup (configure u0 u1) p0 ⟨8, 59, 59⟩ ⟨100, 0⟩).sameAs
      (startup (configure stalePump stalePump) blankBlock ⟨8, 59, 59⟩ ⟨100, 0⟩) :=
    ⟨configure_sameAs u0 u1 stalePump stalePump, rfl, rfl, rfl⟩
  obtain ⟨h1, h2⟩ := loop_sameAs (scenarioInputs.take n) _ _ h0
  exact ⟨enabledFlags_sameAs _ _ h1, h2, h1.2.2.2⟩

/-! ## Theorems on the scheduler -/

/-- C1: an inactive pump is activated by one scheduler step exactly when one of
its first `numTriggerTimes` trigger times equals the previous or the current
wall-clock sample in hour, minute and second; with the single trigger 09:00:00
the samples 08:59:59, 09:00:00 activate it and the samples 08:59:58, 09:00:01
do not. -/
theorem trigger_edge_hit (i : Nat) (tPrev t : Time) (d : Timespec) (s : Sched)
    (h : s.pd.enabled = false) :
    ((pumpBody i tPrev t d s).pd.enabled = true ↔
      ∃ j, j < s.pd.numTriggerTimes ∧
        (s.pd.triggerTimes j = tPrev ∨ s.pd.triggerTimes j = t)) ∧
    ((pumpBody i tPrev t d s).pd.enabled = true ↔
      ∃ j, j < s.pd.numTriggerTimes ∧
        IsTimeInRange (s.pd.triggerTimes j) tPrev t = true) ∧
    (s.pd.numTriggerTimes = 1 → s.pd.triggerTimes 0 = ⟨9, 0, 0⟩ →
      (pumpBody i ⟨8, 59, 59⟩ ⟨9, 0, 0⟩ d s).pd.enabled = true ∧
      (pumpBody i ⟨8, 59, 58⟩ ⟨9, 0, 1⟩ d s).pd.enabled = false) := by
  have key : ∀ a b : Time, ((pumpBody i a b d s).pd.enabled = true ↔
      ∃ j, j < s.pd.numTriggerTimes ∧
        IsTimeInRange (s.pd.triggerTimes j) a b = true) := by
    intro a b
    rw [pumpBody_inactive i a b d s h]
    rcases triggerLoop_cases i a b s.pd.numTriggerTimes 0 s with ⟨e, hm⟩ | ⟨e, k, _, h2, h3⟩
    · rw [e]
      constructor
      · intro h1; rw [h] at h1; exact absurd h1 (by decide)
      · rintro ⟨j, hj, hj2⟩
        rw [hm j (Nat.zero_le j) (by omega)] at hj2
        exact absurd hj2 (by decide)
    · rw [e]
      exact ⟨fun _ => ⟨k, by omega, h3⟩, fun _ => rfl⟩
  refine ⟨?_, key tPrev t, ?_⟩
  · rw [key tPrev t]
    simp only [IsTimeInRange_iff]
  · intro hn h0
    constructor
    · rw [key]
      exact ⟨0, by omega, by rw [h0]; decide⟩
    · cases hb : (pumpBody i ⟨8, 59, 58⟩ ⟨9, 0, 1⟩ d s).pd.enabled with
      | false => rfl
      | true =>
        obtain ⟨j, hj, hj2⟩ := (key _ _).1 hb
        have hj0 : j = 0 := by omega
        rw [hj0, h0] at hj2
        exact absurd hj2 (by decide)

/-- Witness of C1 at the idle pump with previous sample 08:59:59 and current
sample 09:00:00, and at the same pump cut to its first trigger slot. -/
theorem trigger_edge_hit_witness :
    idlePump.enabled = false ∧
    ((pumpBody 0 ⟨8, 59, 59⟩ ⟨9, 0, 0⟩ ⟨0, 500000000⟩
        ⟨idlePump, blankBlock, []⟩).pd.enabled = true ↔
      ∃ j, j < idlePump.numTriggerTimes ∧
        (idlePump.triggerTimes j = ⟨8, 59, 59⟩ ∨ idlePump.triggerTimes j = ⟨9, 0, 0⟩)) ∧
    (pumpBody 0 ⟨8, 59, 59⟩ ⟨9, 0, 0⟩ ⟨0, 500000000⟩
        ⟨idlePump, blankBlock, []⟩).pd.enabled = true ∧
    (pumpBody 0 ⟨8, 59, 58⟩ ⟨9, 0, 1⟩ ⟨0, 500000000⟩
        ⟨{ idlePump with numTriggerTimes := 1 }, blankBlock, []⟩).pd.enabled = false :=
  ⟨by decide,
   (trigger_edge_hit 0 ⟨8, 59, 59⟩ ⟨9, 0, 0⟩ ⟨0, 500000000⟩
      ⟨idlePump, blankBlock, []⟩ (by decide)).1,
   by decide,
   ((trigger_edge_hit 0 ⟨8, 59, 59⟩ ⟨9, 0, 0⟩ ⟨0, 500000000⟩
      ⟨{ idlePump with numTriggerTimes := 1 }, blankBlock, []⟩ (by decide)).2.2
      (by decide) (by decide)).2⟩

/-- C2: when a step takes an inactive pump to active, whatever the stale
counter held, the pump is enabled with counter 0 and the step makes exactly one
access to the block, the store of the pump's pin bit to the set register, also
when several trigger slots match. -/
theorem activation_resets_counter (i : Nat) (tPrev t : Time) (d : Timespec) (s : Sched)
    (h : s.pd.enabled = false)
    (hact : (pumpBody i tPrev t d s).pd.enabled = true) :
    (pumpBody i tPrev t d s).pd.enabled = true ∧
    (pumpBody i tPrev t d s).pd.elapsedMs = 0 ∧
    (pumpBody i tPrev t d s).p = SetPin s.p s.pd.pin ∧
    (pumpBody i tPrev t d s).p.trace =
      s.p.trace ++ [Access.store GPIO_SET ((1 <<< s.pd.pin) % UINT_RANGE)] ∧
    (s.pd.pin < 32 → (1 <<< s.pd.pin) % UINT_RANGE = 2 ^ s.pd.pin) := by
  rw [pumpBody_inactive i tPrev t d s h] at hact ⊢
  rcases triggerLoop_cases i tPrev t s.pd.numTriggerTimes 0 s with ⟨e, _⟩ | ⟨e, _⟩
  · rw [e, h] at hact
    exact absurd hact (by decide)
  · rw [e]
    refine ⟨rfl, rfl, rfl, rfl, ?_⟩
    intro hp
    rw [Nat.one_shiftLeft]
    exact Nat.mod_eq_of_lt (Nat.pow_lt_pow_right (by norm_num) hp)

/-- Witness of C2 at the idle pump (stale counter 777, both trigger slots
matching the current sample 09:00:00). -/
theorem activation_resets_counter_witness :
    idlePump.enabled = false ∧
    (pumpBody 0 ⟨8, 59, 59⟩ ⟨9, 0, 0⟩ ⟨0, 500000000⟩
        ⟨idlePump, blankBlock, []⟩).pd.elapsedMs = 0 ∧
    (pumpBody 0 ⟨8, 59, 59⟩ ⟨9, 0, 0⟩ ⟨0, 500000000⟩
        ⟨idlePump, blankBlock, []⟩).p.trace = [Access.store 7 4194304] :=
  ⟨by decide,
   (activation_resets_counter 0 ⟨8, 59, 59⟩ ⟨9, 0, 0⟩ ⟨0, 500000000⟩
      ⟨idlePump, blankBlock, []⟩ (by decide) (by decide)).2.1,
   (activation_resets_counter 0 ⟨8, 59, 59⟩ ⟨9, 0, 0⟩ ⟨0, 500000000⟩
      ⟨idlePump, blankBlock, []⟩ (by decide) (by decide)).2.2.2.1⟩

/-- C3, as stated, fails when the 32-bit counter wraps: with duration
4294967295 ms, counter 4294967000 ms and a delta worth 500 ms the sum
4294967500 reaches the duration, yet the step leaves the counter at 204 and the
pump active, with no access to the block and no line printed. -/
theorem duration_expiry_wraps :
    nearWrapPump.enabled = true ∧
    nearWrapPump.elapsedMs + 500 ≥ nearWrapPump.durationMs ∧
    (pumpBody 0 ⟨9, 0, 0⟩ ⟨9, 0, 0⟩ ⟨0, 500000000⟩
        ⟨nearWrapPump, blankBlock, []⟩).pd.elapsedMs = 204 ∧
    (pumpBody 0 ⟨9, 0, 0⟩ ⟨9, 0, 0⟩ ⟨0, 500000000⟩
        ⟨nearWrapPump, blankBlock, []⟩).pd.elapsedMs ≠ nearWrapPump.elapsedMs + 500 ∧
    (pumpBody 0 ⟨9, 0, 0⟩ ⟨9, 0, 0⟩ ⟨0, 500000000⟩
        ⟨nearWrapPump, blankBlock, []⟩).pd.enabled = true ∧
    (pumpBody 0 ⟨9, 0, 0⟩ ⟨9, 0, 0⟩ ⟨0, 500000000⟩
        ⟨nearWrapPump, blankBlock, []⟩).p.trace = [] ∧
    (pumpBody 0 ⟨9, 0, 0⟩ ⟨9, 0, 0⟩ ⟨0, 500000000⟩
        ⟨nearWrapPump, blankBlock, []⟩).out = [] := by
  decide

/-- C3 (amended): for an active pump with counter `e` and duration `D`, a step
whose non-negative delta is worth `ms` milliseconds sets the counter to
`(e + ms) mod 2^32`, which is `e + ms` whenever `e + ms < 2^32`; the pump is
deactivated (pin cleared) exactly when this value is at least `D`, the line
printed showing that unclamped value whenever it is below `2^31`, and
otherwise stays active with no access to the block and no line printed.
A pump with `D = 10000` and `e = 0` stepped with deltas worth 4000, 4000 and
3000 ms is active after the first two steps and is deactivated by the third,
which reports 11000 ms. -/
theorem duration_expiry (i : Nat) (tPrev t : Time) (d : Timespec) (s : Sched)
    (h : s.pd.enabled = true) (hs : 0 ≤ d.tv_sec) (hn : 0 ≤ d.tv_nsec) :
    (pumpBody i tPrev t d s).pd.elapsedMs =
      (s.pd.elapsedMs + (d.tv_sec.toNat * 1000 + d.tv_nsec.toNat / 1000000))
        % UINT_RANGE ∧
    (s.pd.elapsedMs + (d.tv_sec.toNat * 1000 + d.tv_nsec.toNat / 1000000) < UINT_RANGE →
      (pumpBody i tPrev t d s).pd.elapsedMs =
        s.pd.elapsedMs + (d.tv_sec.toNat * 1000 + d.tv_nsec.toNat / 1000000)) ∧
    ((pumpBody i tPrev t d s).pd.enabled = false ↔
      (pumpBody i tPrev t d s).pd.elapsedMs ≥ s.pd.durationMs) ∧
    ((pumpBody i tPrev t d s).pd.elapsedMs ≥ s.pd.durationMs →
      (pumpBody i tPrev t d s).p = ClearPin s.p s.pd.pin ∧
      ((pumpBody i tPrev t d s).pd.elapsedMs < 2 ^ 31 →
        (pumpBody i tPrev t d s).out =
          s.out ++ [Msg.pumpOff i t ((pumpBody i tPrev t d s).pd.elapsedMs : Int)])) ∧
    ((pumpBody i tPrev t d s).pd.elapsedMs < s.pd.durationMs →
      (pumpBody i tPrev t d s).pd.enabled = true ∧
      (pumpBody i tPrev t d s).p = s.p ∧
      (pumpBody i tPrev t d s).out = s.out) ∧
    (s.pd.elapsedMs = 0 → s.pd.durationMs = 10000 →
      (pumpBody i tPrev t ⟨4, 0⟩ s).pd.enabled = true ∧
      (pumpBody i tPrev t ⟨4, 0⟩ (pumpBody i tPrev t ⟨4, 0⟩ s)).pd.enabled = true ∧
      (pumpBody i tPrev t ⟨3, 0⟩ (pumpBody i tPrev t ⟨4, 0⟩
        (pumpBody i tPrev t ⟨4, 0⟩ s))).pd.enabled = false ∧
      (pumpBody i tPrev t ⟨3, 0⟩ (pumpBody i tPrev t ⟨4, 0⟩
        (pumpBody i tPrev t ⟨4, 0⟩ s))).pd.elapsedMs = 11000 ∧
      (pumpBody i tPrev t ⟨3, 0⟩ (pumpBody i tPrev t ⟨4, 0⟩
        (pumpBody i tPrev t ⟨4, 0⟩ s))).out = s.out ++ [Msg.pumpOff i t 11000] ∧
      (pumpBody i tPrev t ⟨3, 0⟩ (pumpBody i tPrev t ⟨4, 0⟩
        (pumpBody i tPrev t ⟨4, 0⟩ s))).p = ClearPin s.p s.pd.pin) := by
  have hup := elapsed_update s.pd.elapsedMs d.tv_sec d.tv_nsec hs hn
  refine ⟨?_, ?_, ?_, ?_, ?_, ?_⟩
  · rcases pumpBody_active_cases i tPrev t d s h with ⟨_, e⟩ | ⟨_, e⟩ <;>
      rw [e] <;> exact hup
  · intro hlt
    rcases pumpBody_active_cases i tPrev t d s h with ⟨_, e⟩ | ⟨_, e⟩ <;>
      rw [e] <;> exact hup.trans (Nat.mod_eq_of_lt hlt)
  · rcases pumpBody_active_cases i tPrev t d s h with ⟨hc, e⟩ | ⟨hc, e⟩
    · rw [e]; exact ⟨fun _ => hc, fun _ => rfl⟩
    · rw [e]
      constructor
      · intro h1
        have h2 : s.pd.enabled = false := h1
        rw [h] at h2
        exact absurd h2 (by decide)
      · intro h1
        have h2 : toUInt ((toUInt ((s.pd.elapsedMs : Int) + d.tv_sec * 1000) : Int)
          + Int.tdiv d.tv_nsec 1000000) ≥ s.pd.durationMs := h1
        omega
  · rcases pumpBody_active_cases i tPrev t d s h with ⟨_, e⟩ | ⟨hc, e⟩
    · rw [e]; intro _
      refine ⟨rfl, fun hlt => ?_⟩
      have hlt2 : toUInt ((toUInt ((s.pd.elapsedMs : Int) + d.tv_sec * 1000) : Int)
          + Int.tdiv d.tv_nsec 1000000) < 2 ^ 31 := hlt
      show s.out ++ [Msg.pumpOff i t (printedInt _)] = _
      rw [printedInt_of_lt _ hlt2]
    · rw [e]; intro h1
      have h2 : toUInt ((toUInt ((s.pd.elapsedMs : Int) + d.tv_sec * 1000) : Int)
          + Int.tdiv d.tv_nsec 1000000) ≥ s.pd.durationMs := h1
      omega
  · rcases pumpBody_active_cases i tPrev t d s h with ⟨hc, e⟩ | ⟨_, e⟩
    · rw [e]; intro h1
      have h2 : toUInt ((toUInt ((s.pd.elapsedMs : Int) + d.tv_sec * 1000) : Int)
          + Int.tdiv d.tv_nsec 1000000) < s.pd.durationMs := h1
      omega
    · rw [e]; intro _; exact ⟨h, rfl, rfl⟩
  · intro he hD
    obtain ⟨pd, p, out⟩ := s
    obtain ⟨pin, ntt, tt, D, e, en⟩ := pd
    simp only at h he hD
    subst h he hD
    simp [pumpBody, toUInt, UINT_RANGE, printedInt]

/-- Witness of C3 (amended) at a running pump with counter 9600 and a delta of
0.5 s: the step reaches 10100 ms and deactivates the pump. -/
theorem duration_expiry_witness :
    (runningPump 9600).enabled = true ∧ (0 : Int) ≤ 0 ∧ (0 : Int) ≤ 500000000 ∧
    (pumpBody 0 ⟨9, 0, 9⟩ ⟨9, 0, 10⟩ ⟨0, 500000000⟩
        ⟨runningPump 9600, blankBlock, []⟩).pd.elapsedMs = 10100 ∧
    ((pumpBody 0 ⟨9, 0, 9⟩ ⟨9, 0, 10⟩ ⟨0, 500000000⟩
        ⟨runningPump 9600, blankBlock, []⟩).pd.enabled = false ↔
      (pumpBody 0 ⟨9, 0, 9⟩ ⟨9, 0, 10⟩ ⟨0, 500000000⟩
        ⟨runningPump 9600, blankBlock, []⟩).pd.elapsedMs ≥ 10000) ∧
    (pumpBody 0 ⟨9, 0, 9⟩ ⟨9, 0, 10⟩ ⟨0, 500000000⟩
        ⟨runningPump 9600, blankBlock, []⟩).out = [Msg.pumpOff 0 ⟨9, 0, 10⟩ 10100] :=
  ⟨by decide, by decide, by decide,
   (duration_expiry 0 ⟨9, 0, 9⟩ ⟨9, 0, 10⟩ ⟨0, 500000000⟩
      ⟨runningPump 9600, blankBlock, []⟩ (by decide) (by decide) (by decide)).1,
   (duration_expiry 0 ⟨9, 0, 9⟩ ⟨9, 0, 10⟩ ⟨0, 500000000⟩
      ⟨runningPump 9600, blankBlock, []⟩ (by decide) (by decide) (by decide)).2.2.1,
   ((duration_expiry 0 ⟨9, 0, 9⟩ ⟨9, 0, 10⟩ ⟨0, 500000000⟩
      ⟨runningPump 9600, blankBlock, []⟩ (by decide) (by decide) (by decide)).2.2.2.1
      (by decide)).2 (by decide)⟩

/-- C4: for timestamps with nanosecond fields in `[0, 999999999]` and `ts` not
earlier than `tsPrev`, the difference computed by `main` has non-negative
seconds and nanoseconds, nanoseconds at most 999999999, and is worth exactly
the nanosecond difference of the two timestamps; it borrows one second exactly
when the raw nanosecond subtraction is negative. -/
theorem delta_nonneg_exact (ts tsPrev : Timespec)
    (hp0 : 0 ≤ tsPrev.tv_nsec) (hp1 : tsPrev.tv_nsec ≤ 999999999)
    (hc0 : 0 ≤ ts.tv_nsec) (hc1 : ts.tv_nsec ≤ 999999999)
    (hle : tsPrev.tv_sec * 1000000000 + tsPrev.tv_nsec ≤
      ts.tv_sec * 1000000000 + ts.tv_nsec) :
    0 ≤ (tsDiff ts tsPrev).tv_sec ∧
    0 ≤ (tsDiff ts tsPrev).tv_nsec ∧
    (tsDiff ts tsPrev).tv_nsec ≤ 999999999 ∧
    (tsDiff ts tsPrev).tv_sec * 1000000000 + (tsDiff ts tsPrev).tv_nsec =
      (ts.tv_sec * 1000000000 + ts.tv_nsec) -
        (tsPrev.tv_sec * 1000000000 + tsPrev.tv_nsec) ∧
    (ts.tv_nsec - tsPrev.tv_nsec < 0 →
      tsDiff ts tsPrev =
        ⟨ts.tv_sec - tsPrev.tv_sec - 1, ts.tv_nsec - tsPrev.tv_nsec + 1000000000⟩) ∧
    (¬ ts.tv_nsec - tsPrev.tv_nsec < 0 →
      tsDiff ts tsPrev = ⟨ts.tv_sec - tsPrev.tv_sec, ts.tv_nsec - tsPrev.tv_nsec⟩) := by
  by_cases hneg : ts.tv_nsec - tsPrev.tv_nsec < 0
  · have e : tsDiff ts tsPrev =
        ⟨ts.tv_sec - tsPrev.tv_sec - 1, ts.tv_nsec - tsPrev.tv_nsec + 1000000000⟩ := by
      simp only [tsDiff, hneg, if_true]
    rw [e]
    refine ⟨?_, ?_, ?_, ?_, fun _ => rfl, fun hc => absurd hneg hc⟩ <;>
      simp only <;> omega
  · have e : tsDiff ts tsPrev =
        ⟨ts.tv_sec - tsPrev.tv_sec, ts.tv_nsec - tsPrev.tv_nsec⟩ := by
      simp only [tsDiff, hneg, if_false]
    rw [e]
    refine ⟨?_, ?_, ?_, ?_, fun hc => absurd hc hneg, fun _ => rfl⟩ <;>
      simp only <;> omega

/-- Witness of C4 at `tsPrev = (10 s, 900000000 ns)` and
`ts = (11 s, 400000000 ns)`: the difference is `(0 s, 500000000 ns)`, one second
borrowed. -/
theorem delta_nonneg_exact_witness :
    (0 : Int) ≤ 900000000 ∧ (900000000 : Int) ≤ 999999999 ∧
    (0 : Int) ≤ 400000000 ∧ (400000000 : Int) ≤ 999999999 ∧
    (10 : Int) * 1000000000 + 900000000 ≤ 11 * 1000000000 + 400000000 ∧
    tsDiff ⟨11, 400000000⟩ ⟨10, 900000000⟩ = ⟨0, 500000000⟩ :=
  ⟨by decide, by decide, by decide, by decide, by decide,
   (delta_nonneg_exact ⟨11, 400000000⟩ ⟨10, 900000000⟩
      (by decide) (by decide) (by decide) (by decide) (by decide)).2.2.2.2.1
      (by decide)⟩

/-- C7: one scheduler step makes at most one transition of a pump. An active
pump is either deactivated (one store to the clear register, the "off" line,
no store to the set register) or left active with no access at all; an
inactive pump is either activated (one store to the set register, the "on"
line) or left untouched. So a pump deactivated by a step ends the step
disabled whatever the wall-clock samples and trigger times are, and a pump
activated by a step ends it enabled whatever its duration is, zero included. -/
theorem at_most_one_transition (i : Nat) (tPrev t : Time) (d : Timespec) (s : Sched) :
    (s.pd.enabled = true →
      ((pumpBody i tPrev t d s).pd.enabled = false ∧
        (pumpBody i tPrev t d s).p.trace =
          s.p.trace ++ [Access.store GPIO_CLEAR ((1 <<< s.pd.pin) % UINT_RANGE)] ∧
        (pumpBody i tPrev t d s).out =
          s.out ++ [Msg.pumpOff i t (printedInt (pumpBody i tPrev t d s).pd.elapsedMs)]) ∨
      ((pumpBody i tPrev t d s).pd.enabled = true ∧
        (pumpBody i tPrev t d s).p.trace = s.p.trace ∧
        (pumpBody i tPrev t d s).out = s.out)) ∧
    (s.pd.enabled = false →
      ((pumpBody i tPrev t d s).pd.enabled = true ∧
        (pumpBody i tPrev t d s).p.trace =
          s.p.trace ++ [Access.store GPIO_SET ((1 <<< s.pd.pin) % UINT_RANGE)] ∧
        (pumpBody i tPrev t d s).out = s.out ++ [Msg.pumpOn i t]) ∨
      ((pumpBody i tPrev t d s).pd.enabled = false ∧
        (pumpBody i tPrev t d s).p.trace = s.p.trace ∧
        (pumpBody i tPrev t d s).out = s.out)) ∧
    ((pumpBody 0 ⟨9, 0, 0⟩ ⟨9, 0, 0⟩ ⟨0, 500000000⟩
        ⟨runningPump 9500, blankBlock, []⟩).pd.enabled = false ∧
      (pumpBody 0 ⟨9, 0, 0⟩ ⟨9, 0, 0⟩ ⟨0, 500000000⟩
        ⟨runningPump 9500, blankBlock, []⟩).p.trace = [Access.store 10 4194304]) ∧
    ((pumpBody 0 ⟨9, 0, 0⟩ ⟨9, 0, 0⟩ ⟨0, 500000000⟩
        ⟨{ idlePump with durationMs := 0 }, blankBlock, []⟩).pd.enabled = true ∧
      (pumpBody 0 ⟨9, 0, 0⟩ ⟨9, 0, 0⟩ ⟨0, 500000000⟩
        ⟨{ idlePump with durationMs := 0 }, blankBlock, []⟩).p.trace =
          [Access.store 7 4194304]) := by
  refine ⟨?_, ?_, by decide, by decide⟩
  · intro h
    rcases pumpBody_active_cases i tPrev t d s h with ⟨_, e⟩ | ⟨_, e⟩
    · rw [e]; exact Or.inl ⟨rfl, rfl, rfl⟩
    · rw [e]; exact Or.inr ⟨h, rfl, rfl⟩
  · intro h
    rw [pumpBody_inactive i tPrev t d s h]
    rcases triggerLoop_cases i tPrev t s.pd.numTriggerTimes 0 s with ⟨e, _⟩ | ⟨e, _⟩
    · rw [e]; exact Or.inr ⟨h, rfl, rfl⟩
    · rw [e]; exact Or.inl ⟨rfl, rfl, rfl⟩

/-- C8: for an active pump the step's resulting enabled flag, counter and
register block (hence the pin commands issued) do not depend on the previous
sample, the current sample or the trigger list: replacing them by any others
gives the same result, and the step never stores to the set register. -/
theorem active_ignores_triggers (i : Nat) (tPrev t tPrev2 t2 : Time) (d : Timespec)
    (s : Sched) (n2 : Nat) (tt2 : Nat → Time) (h : s.pd.enabled = true) :
    (pumpBody i tPrev2 t2 d
        { s with pd := { s.pd with numTriggerTimes := n2, triggerTimes := tt2 } }).pd.enabled =
      (pumpBody i tPrev t d s).pd.enabled ∧
    (pumpBody i tPrev2 t2 d
        { s with pd := { s.pd with numTriggerTimes := n2, triggerTimes := tt2 } }).pd.elapsedMs =
      (pumpBody i tPrev t d s).pd.elapsedMs ∧
    (pumpBody i tPrev2 t2 d
        { s with pd := { s.pd with numTriggerTimes := n2, triggerTimes := tt2 } }).p =
      (pumpBody i tPrev t d s).p ∧
    (∀ v, Access.store GPIO_SET v ∈ (pumpBody i tPrev t d s).p.trace →
      Access.store GPIO_SET v ∈ s.p.trace) ∧
    (pumpBody i tPrev t d s).pd.elapsedMs =
      toUInt ((toUInt ((s.pd.elapsedMs : Int) + d.tv_sec * 1000) : Int)
        + Int.tdiv d.tv_nsec 1000000) := by
  have h2 : ({ s with pd := { s.pd with numTriggerTimes := n2, triggerTimes := tt2 } } :
      Sched).pd.enabled = true := h
  rcases pumpBody_active_cases i tPrev t d s h with ⟨hc, e⟩ | ⟨hc, e⟩
  · rcases pumpBody_active_cases i tPrev2 t2 d _ h2 with ⟨hc2, e2⟩ | ⟨hc2, e2⟩
    · rw [e, e2]
      refine ⟨rfl, rfl, rfl, ?_, rfl⟩
      intro v hv
      simp only [ClearPin, Peripheral.store, List.mem_append, List.mem_singleton,
        Access.store.injEq, GPIO_SET, GPIO_CLEAR] at hv
      rcases hv with hv | ⟨hv, _⟩
      · exact hv
      · omega
    · exact absurd hc (by simpa using hc2)
  · rcases pumpBody_active_cases i tPrev2 t2 d _ h2 with ⟨hc2, e2⟩ | ⟨hc2, e2⟩
    · exact absurd hc2 (by simpa using hc)
    · rw [e, e2]
      exact ⟨rfl, rfl, rfl, fun v hv => hv, rfl⟩

/-- Witness of C8 at a running pump with counter 3000: a step whose samples
both equal its trigger 09:00:00 and a step with other samples and an empty
trigger list give the same counter. -/
theorem active_ignores_triggers_witness :
    (runningPump 3000).enabled = true ∧
    (pumpBody 0 ⟨1, 2, 3⟩ ⟨1, 2, 4⟩ ⟨0, 500000000⟩
        ⟨{ runningPump 3000 with numTriggerTimes := 0, triggerTimes := fun _ => ⟨0, 0, 0⟩ },
          blankBlock, []⟩).pd.elapsedMs =
      (pumpBody 0 ⟨9, 0, 0⟩ ⟨9, 0, 0⟩ ⟨0, 500000000⟩
        ⟨runningPump 3000, blankBlock, []⟩).pd.elapsedMs ∧
    (pumpBody 0 ⟨9, 0, 0⟩ ⟨9, 0, 0⟩ ⟨0, 500000000⟩
        ⟨runningPump 3000, blankBlock, []⟩).pd.elapsedMs = 3500 :=
  ⟨by decide,
   (active_ignores_triggers 0 ⟨9, 0, 0⟩ ⟨9, 0, 0⟩ ⟨1, 2, 3⟩ ⟨1, 2, 4⟩ ⟨0, 500000000⟩
      ⟨runningPump 3000, blankBlock, []⟩ 0 (fun _ => ⟨0, 0, 0⟩) (by decide)).2.1,
   (active_ignores_triggers 0 ⟨9, 0, 0⟩ ⟨9, 0, 0⟩ ⟨1, 2, 3⟩ ⟨1, 2, 4⟩ ⟨0, 500000000⟩
      ⟨runningPump 3000, blankBlock, []⟩ 0 (fun _ => ⟨0, 0, 0⟩) (by decide)).2.2.2.2⟩

/-- C9: for an active pump and a delta `(s, n)` with `s ≥ 0` and
`0 ≤ n < 1000000000`, one step leaves the counter at
`(e + (s * 1000 + n / 1000000)) mod 2^32`, and the amount added equals the
whole delta `s * 1000000000 + n` nanoseconds divided by 1000000 once. -/
theorem elapsed_ms_conversion (i : Nat) (tPrev t : Time) (d : Timespec) (s : Sched)
    (h : s.pd.enabled = true) (hs : 0 ≤ d.tv_sec) (hn : 0 ≤ d.tv_nsec)
    (hn1 : d.tv_nsec < 1000000000) :
    ((pumpBody i tPrev t d s).pd.elapsedMs : Int) =
      ((s.pd.elapsedMs : Int) + (d.tv_sec * 1000 + d.tv_nsec / 1000000)) % 2 ^ 32 ∧
    d.tv_sec * 1000 + d.tv_nsec / 1000000 =
      (d.tv_sec * 1000000000 + d.tv_nsec) / 1000000 ∧
    0 ≤ d.tv_nsec / 1000000 ∧ d.tv_nsec / 1000000 < 1000 := by
  refine ⟨?_, by omega, by omega, by omega⟩
  have hup := elapsed_update s.pd.elapsedMs d.tv_sec d.tv_nsec hs hn
  have hval : (pumpBody i tPrev t d s).pd.elapsedMs =
      (s.pd.elapsedMs + (d.tv_sec.toNat * 1000 + d.tv_nsec.toNat / 1000000))
        % UINT_RANGE := by
    rcases pumpBody_active_cases i tPrev t d s h with ⟨_, e⟩ | ⟨_, e⟩ <;>
      rw [e] <;> exact hup
  rw [hval]
  obtain ⟨S, hS⟩ := Int.eq_ofNat_of_zero_le hs
  obtain ⟨N, hN⟩ := Int.eq_ofNat_of_zero_le hn
  rw [hS, hN]
  simp only [Int.toNat_natCast, UINT_RANGE]
  push_cast
  rfl

/-- Witness of C9 at a running pump with counter 3000 and the delta
`(1 s, 999999999 ns)`, which adds 1999 ms. -/
theorem elapsed_ms_conversion_witness :
    (runningPump 3000).enabled = true ∧ (0 : Int) ≤ 1 ∧ (0 : Int) ≤ 999999999 ∧
    (999999999 : Int) < 1000000000 ∧
    ((pumpBody 0 ⟨9, 0, 1⟩ ⟨9, 0, 3⟩ ⟨1, 999999999⟩
        ⟨runningPump 3000, blankBlock, []⟩).pd.elapsedMs : Int) =
      ((3000 : Int) + (1 * 1000 + 999999999 / 1000000)) % 2 ^ 32 :=
  ⟨by decide, by decide, by decide, by decide,
   (elapsed_ms_conversion 0 ⟨9, 0, 1⟩ ⟨9, 0, 3⟩ ⟨1, 999999999⟩
      ⟨runningPump 3000, blankBlock, []⟩ (by decide) (by decide) (by decide)
      (by decide)).1⟩

set_option maxRecDepth 100000 in
/-- The simulated run evaluated on fixed indeterminate values. -/
theorem scenarioAfter_eval :
    ∀ n, n ≤ 26 →
      enabledFlags (scenarioAfter n).1 = [decide (3 ≤ n ∧ n ≤ 22), false] ∧
      (scenarioAfter n).2 = false ∧
      (scenarioAfter n).1.out = scenarioOut n := by
  decide

/-- C5: the program's two-pump schedule polled every 500 ms from 08:59:59 to
09:00:11 (26 polls, each second sampled twice, previous sample of the first
poll 08:59:59, every delta 500 ms), whatever the uninitialised memory and the
register block hold at the start. Pump 0 is activated by the third poll, the
first whose current sample is 09:00:00, is active after each of the next 19
polls, is deactivated by the 20th poll after the activation (the 23rd poll,
current sample 09:00:10) reporting 10000 ms, and is not activated again; pump 1
is inactive throughout; the loop is never left. -/
theorem end_to_end_scenario (u0 u1 : PumpData) (p0 : Peripheral) :
    (∀ k, k < 26 →
      tsDiff (scenarioMono k) (if k = 0 then ⟨100, 0⟩ else scenarioMono (k - 1)) =
        ⟨0, 500000000⟩) ∧
    scenarioInputs.map (fun inp => inp.t) =
      [⟨8, 59, 59⟩, ⟨8, 59, 59⟩, ⟨9, 0, 0⟩, ⟨9, 0, 0⟩, ⟨9, 0, 1⟩, ⟨9, 0, 1⟩,
       ⟨9, 0, 2⟩, ⟨9, 0, 2⟩, ⟨9, 0, 3⟩, ⟨9, 0, 3⟩, ⟨9, 0, 4⟩, ⟨9, 0, 4⟩,
       ⟨9, 0, 5⟩, ⟨9, 0, 5⟩, ⟨9, 0, 6⟩, ⟨9, 0, 6⟩, ⟨9, 0, 7⟩, ⟨9, 0, 7⟩,
       ⟨9, 0, 8⟩, ⟨9, 0, 8⟩, ⟨9, 0, 9⟩, ⟨9, 0, 9⟩, ⟨9, 0, 10⟩, ⟨9, 0, 10⟩,
       ⟨9, 0, 11⟩, ⟨9, 0, 11⟩] ∧
    (configure u0 u1).map (fun pd => (pd.pin, pd.numTriggerTimes, pd.durationMs, pd.enabled))
      = [(22, 2, 10000, false), (27, 3, 5000, false)] ∧
    (∀ n, n ≤ 26 →
      enabledFlags (scenarioRun u0 u1 p0 n).1 = [decide (3 ≤ n ∧ n ≤ 22), false] ∧
      (scenarioRun u0 u1 p0 n).2 = false ∧
      (scenarioRun u0 u1 p0 n).1.out =
        (if n < 3 then []
         else if n < 23 then [Msg.pumpOn 0 ⟨9, 0, 0⟩]
         else [Msg.pumpOn 0 ⟨9, 0, 0⟩, Msg.pumpOff 0 ⟨9, 0, 10⟩ 10000])) := by
  refine ⟨by decide, by decide, rfl, ?_⟩
  intro n hn
  obtain ⟨h1, h2, h3⟩ := scenarioRun_sameAs u0 u1 p0 n
  obtain ⟨e1, e2, e3⟩ := scenarioAfter_eval n hn
  rw [h1, h2, h3]
  exact ⟨e1, e2, e3⟩

/-! ## Lemmas on the shutdown sequence and the output levels -/

theorem clearPumps_trace (pumps : List PumpData) :
    ∀ p : Peripheral, (clearPumps pumps p).trace =
      p.trace ++ pumps.map
        (fun pd => Access.store GPIO_CLEAR ((1 <<< pd.pin) % UINT_RANGE)) := by
  induction pumps with
  | nil => intro p; simp [clearPumps]
  | cons pd rest ih =>
    intro p
    simp only [clearPumps, ih, ClearPin, Peripheral.store, List.map_cons,
      List.append_assoc, List.singleton_append]

theorem clearPumps_mapped (pumps : List PumpData) :
    ∀ p : Peripheral, (clearPumps pumps p).mapped = p.mapped := by
  induction pumps with
  | nil => intro p; rfl
  | cons pd rest ih => intro p; simp only [clearPumps, ih, ClearPin, Peripheral.store]

theorem levelAfter_append (lev : Nat) (a b : List Access) :
    levelAfter lev (a ++ b) = levelAfter (levelAfter lev a) b := by
  simp only [levelAfter, List.foldl_append]

/-- A store of pin `q`'s bit to the clear register lowers bit `q` of the level. -/
theorem levelStep_clear_lowers (lev q : Nat) :
    (levelStep lev (Access.store GPIO_CLEAR ((1 <<< q) % UINT_RANGE))).testBit q = false := by
  have hR : UINT_RANGE = 2 ^ 32 := rfl
  have hM : UINT_MAX = 2 ^ 32 - 1 := rfl
  simp only [levelStep, GPIO_CLEAR, GPIO_SET, Nat.mod_mod]
  rw [if_neg (by decide), if_pos trivial, Nat.testBit_and, Nat.testBit_xor, hR, hM,
    Nat.testBit_two_pow_sub_one, Nat.testBit_mod_two_pow, Nat.one_shiftLeft,
    Nat.testBit_two_pow_self]
  cases decide (q < 32) <;> simp

/-- A store to the clear register raises no bit of the level. -/
theorem levelStep_clear_keeps_low (lev q v : Nat) (h : lev.testBit q = false) :
    (levelStep lev (Access.store GPIO_CLEAR v)).testBit q = false := by
  simp only [levelStep, GPIO_CLEAR, GPIO_SET]
  rw [if_neg (by decide), if_pos trivial, Nat.testBit_and, h, Bool.false_and]

/-- After the clear stores for a list of pumps, a bit is low if it was low
before or belongs to one of the pumps. -/
theorem levelAfter_clears (q : Nat) (pumps : List PumpData) :
    ∀ lev : Nat, (lev.testBit q = false ∨ ∃ pd ∈ pumps, pd.pin = q) →
      (levelAfter lev (pumps.map
        (fun pd => Access.store GPIO_CLEAR ((1 <<< pd.pin) % UINT_RANGE)))).testBit q
        = false := by
  induction pumps with
  | nil =>
    intro lev h
    rcases h with h | ⟨pd, hpd, _⟩
    · simpa [levelAfter] using h
    · exact absurd hpd (List.not_mem_nil pd)
  | cons pd rest ih =>
    intro lev h
    simp only [List.map_cons, levelAfter, List.foldl_cons]
    apply ih
    rcases h with h | ⟨pd2, hpd2, hq⟩
    · exact Or.inl (levelStep_clear_keeps_low lev q _ h)
    · rcases List.mem_cons.1 hpd2 with e | hmem
      · left
        rw [← hq, e]
        exact levelStep_clear_lowers lev pd.pin
      · exact Or.inr ⟨pd2, hmem, hq⟩

/-! ## Theorems on the control loop -/

/-- C6: in any loop state, when the exit pin reads asserted at the start of an
iteration, the loop is left at once: no scheduler step runs (pump records
unchanged, the only access is the read of the level register). The shutdown
sequence then stores the ping output bit and every pump's pin bit to the clear
register, in this order, and only then releases the block; under the register
model in which a clear store lowers exactly the written bits, the ping output
pin and every pump pin are low at exit whatever the levels were before. -/
theorem exit_deasserts_outputs (inp : Input) (rest : List Input) (s : LoopState)
    (hexit : (ReadPin (hwLevel s.p inp.levExit) PIN_EXIT).1 = true) :
    (loop (inp :: rest) s).2 = true ∧
    (loop (inp :: rest) s).1.pumpData = s.pumpData ∧
    (loop (inp :: rest) s).1.out = s.out ++ [Msg.exitSignal] ∧
    (loop (inp :: rest) s).1.p.trace = s.p.trace ++ [Access.load GPIO_LEVEL] ∧
    (shutdown (loop (inp :: rest) s).1).pumpData = s.pumpData ∧
    (shutdown (loop (inp :: rest) s).1).p.trace =
      s.p.trace ++ [Access.load GPIO_LEVEL] ++
        [Access.store GPIO_CLEAR ((1 <<< PIN_PING_OUT) % UINT_RANGE)] ++
        s.pumpData.map
          (fun pd => Access.store GPIO_CLEAR ((1 <<< pd.pin) % UINT_RANGE)) ++
        [Access.unmap] ∧
    (shutdown (loop (inp :: rest) s).1).p.mapped = false ∧
    (∀ lev : Nat,
      (levelAfter lev (shutdown (loop (inp :: rest) s).1).p.trace).testBit PIN_PING_OUT
        = false ∧
      ∀ pd ∈ s.pumpData,
        (levelAfter lev (shutdown (loop (inp :: rest) s).1).p.trace).testBit pd.pin
          = false) := by
  have hl : loop (inp :: rest) s =
      ({ s with p := (ReadPin (hwLevel s.p inp.levExit) PIN_EXIT).2,
                out := s.out ++ [Msg.exitSignal] }, true) := by
    simp only [loop, iteration, hexit, if_true]
  have htr : (shutdown (loop (inp :: rest) s).1).p.trace =
      s.p.trace ++ [Access.load GPIO_LEVEL] ++
        [Access.store GPIO_CLEAR ((1 <<< PIN_PING_OUT) % UINT_RANGE)] ++
        s.pumpData.map
          (fun pd => Access.store GPIO_CLEAR ((1 <<< pd.pin) % UINT_RANGE)) ++
        [Access.unmap] := by
    rw [hl]
    simp only [shutdown, UnmapPeripheral, clearPumps_trace, ClearPin, Peripheral.store,
      ReadPin, Peripheral.load, hwLevel]
  refine ⟨by rw [hl], by rw [hl], by rw [hl], ?_, by rw [hl]; rfl, htr, ?_, ?_⟩
  · rw [hl]; rfl
  · rw [hl]
    simp only [shutdown, UnmapPeripheral]
  · intro lev
    rw [htr]
    simp only [levelAfter_append]
    have hun : ∀ l : Nat, levelAfter l [Access.unmap] = l := fun l => rfl
    have hst : ∀ (l : Nat) (a : Access), levelAfter l [a] = levelStep l a := fun l a => rfl
    rw [hun, hst]
    constructor
    · exact levelAfter_clears PIN_PING_OUT s.pumpData _
        (Or.inl (levelStep_clear_lowers _ PIN_PING_OUT))
    · intro pd hpd
      exact levelAfter_clears pd.pin s.pumpData _ (Or.inr ⟨pd, hpd, rfl⟩)

/-- Witness of C6 at the simulated run after 5 polls (pump 0 running, pump 1
idle) with the exit pin, bit 8 of the level register, high. -/
theorem exit_deasserts_outputs_witness :
    (ReadPin (hwLevel (scenarioAfter 5).1.p 256) PIN_EXIT).1 = true ∧
    (loop [⟨256, 0, ⟨9, 0, 1⟩, ⟨103, 0⟩⟩] (scenarioAfter 5).1).2 = true ∧
    (levelAfter 4294967295
      (shutdown (loop [⟨256, 0, ⟨9, 0, 1⟩, ⟨103, 0⟩⟩]
        (scenarioAfter 5).1).1).p.trace).testBit PIN_PING_OUT = false :=
  ⟨by decide,
   (exit_deasserts_outputs ⟨256, 0, ⟨9, 0, 1⟩, ⟨103, 0⟩⟩ [] (scenarioAfter 5).1
      (by decide)).1,
   ((exit_deasserts_outputs ⟨256, 0, ⟨9, 0, 1⟩, ⟨103, 0⟩⟩ [] (scenarioAfter 5).1
      (by decide)).2.2.2.2.2.2.2 4294967295).1⟩

/-! ## Lemmas on the function-select field -/

/-- Clearing the bits outside a mask and setting some bits is absorbed by a
second application. -/
theorem and_or_absorb (x m b : Nat) :
    (((x &&& m) ||| b) &&& m) ||| b = (x &&& m) ||| b := by
  apply Nat.eq_of_testBit_eq
  intro i
  simp only [Nat.testBit_or, Nat.testBit_and]
  cases x.testBit i <;> cases m.testBit i <;> cases b.testBit i <;> rfl

/-- A field value shifted to a field position fits an `unsigned int`. -/
theorem shiftLeft_field_mod (c k : Nat) (hc : c < 8) (hk : k ≤ 27) :
    (c <<< k) % UINT_RANGE = c <<< k := by
  apply Nat.mod_eq_of_lt
  rw [Nat.shiftLeft_eq]
  calc c * 2 ^ k < 8 * 2 ^ k := Nat.mul_lt_mul_of_pos_right hc (Nat.two_pow_pos k)
    _ ≤ 8 * 2 ^ 27 := Nat.mul_le_mul_left 8 (Nat.pow_le_pow_right (by norm_num) hk)
    _ ≤ UINT_RANGE := by norm_num [UINT_RANGE]

/-- After the two stores of `SetOutputPin` the 3-bit field at position `k`
reads 001. -/
theorem field_reads_output (x k : Nat) (hk : k ≤ 27) :
    (((x &&& (UINT_MAX ^^^ ((7 <<< k) % UINT_RANGE))) ||| ((1 <<< k) % UINT_RANGE))
      >>> k) % 8 = 1 := by
  rw [shiftLeft_field_mod 7 k (by norm_num) hk, shiftLeft_field_mod 1 k (by norm_num) hk]
  apply Nat.eq_of_testBit_eq
  intro i
  have h8 : (8 : Nat) = 2 ^ 3 := by norm_num
  rw [h8, Nat.testBit_mod_two_pow, Nat.testBit_shiftRight, Nat.testBit_or,
    Nat.testBit_and, Nat.testBit_xor, Nat.testBit_shiftLeft, Nat.testBit_shiftLeft]
  simp only [UINT_MAX, Nat.testBit_two_pow_sub_one]
  by_cases hi : i < 3
  · have h1 : k + i < 32 := by omega
    have h2 : k + i ≥ k := by omega
    have h3 : k + i - k = i := by omega
    simp only [hi, h1, h2, h3, decide_True, Bool.true_and]
    have b70 : Nat.testBit 7 0 = true := by decide
    have b71 : Nat.testBit 7 1 = true := by decide
    have b72 : Nat.testBit 7 2 = true := by decide
    have b10 : Nat.testBit 1 0 = true := by decide
    have b11 : Nat.testBit 1 1 = false := by decide
    have b12 : Nat.testBit 1 2 = false := by decide
    interval_cases i <;> simp [b70, b71, b72, b10, b11, b12]
  · have h1 : Nat.testBit 1 i = false := by
      apply Nat.testBit_lt_two_pow
      calc 1 < 2 ^ 3 := by norm_num
        _ ≤ 2 ^ i := Nat.pow_le_pow_right (by norm_num) (by omega)
    simp [hi, h1]

/-- Register contents after `SetOutputPin`: only the pin's group word changes. -/
theorem SetOutputPin_addr (p : Peripheral) (pin : Nat) :
    (SetOutputPin p pin).addr =
      Function.update p.addr (pin / 10)
        ((p.addr (pin / 10) &&& (UINT_MAX ^^^ ((7 <<< ((pin % 10) * 3)) % UINT_RANGE)))
          ||| ((1 <<< ((pin % 10) * 3)) % UINT_RANGE)) := by
  simp only [SetOutputPin, Peripheral.load, Peripheral.store, Function.update_same,
    Function.update_idem]

/-! ## Theorems on the pin functions -/

/-- C10: for every register contents and every pin (0 to 31 in particular),
`SetOutputPin` applied twice to a pin leaves the same register contents as
applied once, and the pin's 3-bit function-select field reads 001 after the
first application and after the second. -/
theorem SetOutputPin_idempotent (p : Peripheral) (pin : Nat) :
    (SetOutputPin (SetOutputPin p pin) pin).addr = (SetOutputPin p pin).addr ∧
    ((SetOutputPin p pin).addr (pin / 10) >>> ((pin % 10) * 3)) % 8 = 1 ∧
    ((SetOutputPin (SetOutputPin p pin) pin).addr (pin / 10) >>> ((pin % 10) * 3)) % 8
      = 1 := by
  have hk : (pin % 10) * 3 ≤ 27 := by omega
  have h2 : (SetOutputPin (SetOutputPin p pin) pin).addr = (SetOutputPin p pin).addr := by
    rw [SetOutputPin_addr (SetOutputPin p pin) pin, SetOutputPin_addr p pin]
    simp only [Function.update_same, Function.update_idem, and_or_absorb]
  refine ⟨h2, ?_, ?_⟩
  · rw [SetOutputPin_addr, Function.update_same]
    exact field_reads_output _ _ hk
  · rw [h2, SetOutputPin_addr, Function.update_same]
    exact field_reads_output _ _ hk

/-! ## Lemmas on single pin bits and on the bits outside a field -/

/-- The word `1 << pin` of a pin below 32 is `2 ^ pin`. -/
theorem pin_word (pin : Nat) (h : pin < 32) : (1 <<< pin) % UINT_RANGE = 2 ^ pin := by
  rw [Nat.one_shiftLeft]
  exact Nat.mod_eq_of_lt (Nat.pow_lt_pow_right (by norm_num) h)

/-- Bit `q` of the word of pin `pin` is set exactly for `q = pin`. -/
theorem pin_word_testBit (pin q : Nat) (h : pin < 32) :
    ((1 <<< pin) % UINT_RANGE).testBit q = decide (pin = q) := by
  rw [pin_word pin h, Nat.testBit_two_pow]

/-- The three-bit mask 7 has no bit at position 3 or above. -/
theorem seven_testBit_high (i : Nat) (h : 3 ≤ i) : Nat.testBit 7 i = false := by
  apply Nat.testBit_lt_two_pow
  calc 7 < 2 ^ 3 := by norm_num
    _ ≤ 2 ^ i := Nat.pow_le_pow_right (by norm_num) h

/-- Clearing the field at position `k` leaves the bits outside it as they were. -/
theorem field_clear_frame (x k i : Nat) (hk : k ≤ 27) (hi : i < 32)
    (hout : i < k ∨ k + 3 ≤ i) :
    (x &&& (UINT_MAX ^^^ ((7 <<< k) % UINT_RANGE))).testBit i = x.testBit i := by
  rw [shiftLeft_field_mod 7 k (by norm_num) hk, Nat.testBit_and, Nat.testBit_xor,
    Nat.testBit_shiftLeft]
  simp only [UINT_MAX, Nat.testBit_two_pow_sub_one, hi, decide_True]
  rcases hout with h | h
  · have : ¬ i ≥ k := by omega
    simp [this]
  · have h1 : i ≥ k := by omega
    have h2 := seven_testBit_high (i - k) (by omega)
    simp [h1, h2]

/-- Setting the low bit of the field at position `k` leaves the bits outside
the field as they were. -/
theorem field_set_frame (x k i : Nat) (hk : k ≤ 27) (hout : i < k ∨ k + 3 ≤ i) :
    (x ||| ((1 <<< k) % UINT_RANGE)).testBit i = x.testBit i := by
  rw [shiftLeft_field_mod 1 k (by norm_num) hk, Nat.testBit_or, Nat.one_shiftLeft,
    Nat.testBit_two_pow]
  have : ¬ k = i := by omega
  simp [this]

/-- After the store of `SetInputPin` the 3-bit field at position `k` reads 000. -/
theorem field_reads_input (x k : Nat) (hk : k ≤ 27) :
    ((x &&& (UINT_MAX ^^^ ((7 <<< k) % UINT_RANGE))) >>> k) % 8 = 0 := by
  rw [shiftLeft_field_mod 7 k (by norm_num) hk]
  apply Nat.eq_of_testBit_eq
  intro i
  have h8 : (8 : Nat) = 2 ^ 3 := by norm_num
  rw [h8, Nat.testBit_mod_two_pow, Nat.testBit_shiftRight, Nat.testBit_and,
    Nat.testBit_xor, Nat.testBit_shiftLeft]
  simp only [UINT_MAX, Nat.testBit_two_pow_sub_one, Nat.zero_testBit]
  by_cases hi : i < 3
  · have h1 : k + i < 32 := by omega
    have h2 : k + i ≥ k := by omega
    have h3 : k + i - k = i := by omega
    have b70 : Nat.testBit 7 0 = true := by decide
    have b71 : Nat.testBit 7 1 = true := by decide
    have b72 : Nat.testBit 7 2 = true := by decide
    simp only [hi, h1, h2, h3, decide_True, Bool.true_and]
    interval_cases i <;> simp [b70, b71, b72]
  · simp [hi]

theorem SetInputPin_addr (p : Peripheral) (pin : Nat) :
    (SetInputPin p pin).addr =
      Function.update p.addr (pin / 10)
        (p.addr (pin / 10) &&& (UINT_MAX ^^^ ((7 <<< ((pin % 10) * 3)) % UINT_RANGE))) := by
  simp only [SetInputPin, Peripheral.load, Peripheral.store]

/-- C11: for a pin below 32, `SetPin` makes exactly one access to the block,
the store of the word `2 ^ pin` to word 7, and `ClearPin` exactly one, the
store of the same word to word 10. Neither loads a register nor changes any
other word; the access made is the same whatever the block held before, and
the word stored has no bit of any other pin. -/
theorem SetPin_ClearPin_single_store (p : Peripheral) (pin : Nat) (h : pin < 32) :
    (SetPin p pin).trace = p.trace ++ [Access.store 7 (2 ^ pin)] ∧
    (ClearPin p pin).trace = p.trace ++ [Access.store 10 (2 ^ pin)] ∧
    (∀ k, k ≠ 7 → (SetPin p pin).addr k = p.addr k) ∧
    (∀ k, k ≠ 10 → (ClearPin p pin).addr k = p.addr k) ∧
    (SetPin p pin).addr 7 = 2 ^ pin ∧
    (ClearPin p pin).addr 10 = 2 ^ pin ∧
    (∀ p2 : Peripheral, p2.trace = p.trace →
      (SetPin p2 pin).trace = (SetPin p pin).trace ∧
      (ClearPin p2 pin).trace = (ClearPin p pin).trace) ∧
    (∀ q, q ≠ pin → (2 ^ pin).testBit q = false) ∧
    (2 ^ pin).testBit pin = true := by
  have hw := pin_word pin h
  refine ⟨?_, ?_, ?_, ?_, ?_, ?_, ?_, ?_, ?_⟩
  · simp only [SetPin, Peripheral.store, GPIO_SET, hw]
  · simp only [ClearPin, Peripheral.store, GPIO_CLEAR, hw]
  · intro k hk
    simp only [SetPin, Peripheral.store, GPIO_SET, Function.update_noteq hk]
  · intro k hk
    simp only [ClearPin, Peripheral.store, GPIO_CLEAR, Function.update_noteq hk]
  · simp only [SetPin, Peripheral.store, GPIO_SET, Function.update_same, hw]
  · simp only [ClearPin, Peripheral.store, GPIO_CLEAR, Function.update_same, hw]
  · intro p2 h2
    simp only [SetPin, ClearPin, Peripheral.store, h2, and_self]
  · intro q hq
    rw [Nat.testBit_two_pow]
    exact decide_eq_false (fun e => hq e.symm)
  · exact Nat.testBit_two_pow_self

/-- Witness of C11 at pin 22 on the blank block. -/
theorem SetPin_ClearPin_single_store_witness :
    22 < 32 ∧
    (SetPin blankBlock 22).trace = blankBlock.trace ++ [Access.store 7 (2 ^ 22)] ∧
    (ClearPin blankBlock 22).trace = blankBlock.trace ++ [Access.store 10 (2 ^ 22)] :=
  ⟨by decide,
   (SetPin_ClearPin_single_store blankBlock 22 (by decide)).1,
   (SetPin_ClearPin_single_store blankBlock 22 (by decide)).2.1⟩

/-- C12: for a pin from 0 to 31, `SetInputPin` leaves the 3-bit field at bits
`3 * (pin mod 10)` to `3 * (pin mod 10) + 2` of word `pin div 10` at 000 and
`SetOutputPin` leaves it at 001; both leave every other bit of that 32-bit
word and every other word of the block, the set, clear and level registers
among them, as they were. -/
theorem function_select_frame (p : Peripheral) (pin : Nat) (h : pin ≤ 31) :
    ((SetInputPin p pin).addr (pin / 10) >>> ((pin % 10) * 3)) % 8 = 0 ∧
    ((SetOutputPin p pin).addr (pin / 10) >>> ((pin % 10) * 3)) % 8 = 1 ∧
    (∀ i, i < 32 → (i < (pin % 10) * 3 ∨ (pin % 10) * 3 + 3 ≤ i) →
      ((SetInputPin p pin).addr (pin / 10)).testBit i = (p.addr (pin / 10)).testBit i ∧
      ((SetOutputPin p pin).addr (pin / 10)).testBit i = (p.addr (pin / 10)).testBit i) ∧
    (∀ k, k ≠ pin / 10 →
      (SetInputPin p pin).addr k = p.addr k ∧ (SetOutputPin p pin).addr k = p.addr k) ∧
    ((SetInputPin p pin).addr GPIO_SET = p.addr GPIO_SET ∧
      (SetInputPin p pin).addr GPIO_CLEAR = p.addr GPIO_CLEAR ∧
      (SetInputPin p pin).addr GPIO_LEVEL = p.addr GPIO_LEVEL) ∧
    ((SetOutputPin p pin).addr GPIO_SET = p.addr GPIO_SET ∧
      (SetOutputPin p pin).addr GPIO_CLEAR = p.addr GPIO_CLEAR ∧
      (SetOutputPin p pin).addr GPIO_LEVEL = p.addr GPIO_LEVEL) := by
  have hk : (pin % 10) * 3 ≤ 27 := by omega
  have hother : ∀ k, k ≠ pin / 10 →
      (SetInputPin p pin).addr k = p.addr k ∧ (SetOutputPin p pin).addr k = p.addr k := by
    intro k hne
    rw [SetInputPin_addr, SetOutputPin_addr]
    exact ⟨Function.update_noteq hne _ _, Function.update_noteq hne _ _⟩
  have h7 : GPIO_SET ≠ pin / 10 := by simp only [GPIO_SET]; omega
  have h10 : GPIO_CLEAR ≠ pin / 10 := by simp only [GPIO_CLEAR]; omega
  have h13 : GPIO_LEVEL ≠ pin / 10 := by simp only [GPIO_LEVEL]; omega
  refine ⟨?_, ?_, ?_, hother,
    ⟨(hother _ h7).1, (hother _ h10).1, (hother _ h13).1⟩,
    ⟨(hother _ h7).2, (hother _ h10).2, (hother _ h13).2⟩⟩
  · rw [SetInputPin_addr, Function.update_same]
    exact field_reads_input _ _ hk
  · rw [SetOutputPin_addr, Function.update_same]
    exact field_reads_output _ _ hk
  · intro i hi hout
    rw [SetInputPin_addr, SetOutputPin_addr, Function.update_same, Function.update_same]
    constructor
    · exact field_clear_frame _ _ _ hk hi hout
    · rw [field_set_frame _ _ _ hk hout]
      exact field_clear_frame _ _ _ hk hi hout

/-- Witness of C12 at pin 27 on the blank block. -/
theorem function_select_frame_witness :
    27 ≤ 31 ∧
    ((SetInputPin blankBlock 27).addr (27 / 10) >>> ((27 % 10) * 3)) % 8 = 0 ∧
    ((SetOutputPin blankBlock 27).addr (27 / 10) >>> ((27 % 10) * 3)) % 8 = 1 :=
  ⟨by decide,
   (function_select_frame blankBlock 27 (by decide)).1,
   (function_select_frame blankBlock 27 (by decide)).2.1⟩

/-! ## Theorems on the elapsed counter across polls -/

/-- C13, as stated, fails when the 32-bit counter wraps: the pump with duration
4294967295 ms and counter 4294967000 ms, stepped with a delta of one second, is
active before and after the step, and its counter falls to 704. -/
theorem counter_falls_on_wrap :
    nearWrapPump.enabled = true ∧ (0 : Int) ≤ 1 ∧ (0 : Int) ≤ 0 ∧
    (pumpBody 0 ⟨9, 0, 0⟩ ⟨9, 0, 1⟩ ⟨1, 0⟩
        ⟨nearWrapPump, blankBlock, []⟩).pd.enabled = true ∧
    (pumpBody 0 ⟨9, 0, 0⟩ ⟨9, 0, 1⟩ ⟨1, 0⟩
        ⟨nearWrapPump, blankBlock, []⟩).pd.elapsedMs = 704 ∧
    ¬ ((pumpBody 0 ⟨9, 0, 0⟩ ⟨9, 0, 1⟩ ⟨1, 0⟩
        ⟨nearWrapPump, blankBlock, []⟩).pd.elapsedMs ≥ nearWrapPump.elapsedMs) := by
  decide

/-- C13 (amended): for a pump that is active before a poll step and a
non-negative delta worth `ms` milliseconds with `e + ms < 2^32`, the counter
after the step is `e + ms`, hence at least its value `e` before the step,
whether or not the step leaves the pump active. -/
theorem counter_monotone_without_wrap (i : Nat) (tPrev t : Time) (d : Timespec)
    (s : Sched) (h : s.pd.enabled = true) (hs : 0 ≤ d.tv_sec) (hn : 0 ≤ d.tv_nsec)
    (hw : s.pd.elapsedMs + (d.tv_sec.toNat * 1000 + d.tv_nsec.toNat / 1000000)
      < UINT_RANGE) :
    (pumpBody i tPrev t d s).pd.elapsedMs ≥ s.pd.elapsedMs ∧
    (pumpBody i tPrev t d s).pd.elapsedMs =
      s.pd.elapsedMs + (d.tv_sec.toNat * 1000 + d.tv_nsec.toNat / 1000000) := by
  have hup := elapsed_update s.pd.elapsedMs d.tv_sec d.tv_nsec hs hn
  have hval : (pumpBody i tPrev t d s).pd.elapsedMs =
      s.pd.elapsedMs + (d.tv_sec.toNat * 1000 + d.tv_nsec.toNat / 1000000) := by
    rcases pumpBody_active_cases i tPrev t d s h with ⟨_, e⟩ | ⟨_, e⟩ <;>
      rw [e] <;> exact hup.trans (Nat.mod_eq_of_lt hw)
  exact ⟨by rw [hval]; exact Nat.le_add_right _ _, hval⟩

/-- Witness of C13 (amended) at a running pump with counter 3000 and a delta
of 0.5 s. -/
theorem counter_monotone_without_wrap_witness :
    (runningPump 3000).enabled = true ∧ (0 : Int) ≤ 0 ∧ (0 : Int) ≤ 500000000 ∧
    3000 + ((0 : Int).toNat * 1000 + (500000000 : Int).toNat / 1000000) < UINT_RANGE ∧
    (pumpBody 0 ⟨9, 0, 3⟩ ⟨9, 0, 3⟩ ⟨0, 500000000⟩
        ⟨runningPump 3000, blankBlock, []⟩).pd.elapsedMs ≥ 3000 :=
  ⟨by decide, by decide, by decide, by decide,
   (counter_monotone_without_wrap 0 ⟨9, 0, 3⟩ ⟨9, 0, 3⟩ ⟨0, 500000000⟩
      ⟨runningPump 3000, blankBlock, []⟩ (by decide) (by decide) (by decide)
      (by decide)).1⟩

/-- The pump loop on pumps that are all inactive leaves each record as it was
or activates it with counter 0. -/
theorem pumpLoop_all_inactive (tPrev t : Time) (d : Timespec) (pumps : List PumpData) :
    (∀ pd ∈ pumps, pd.enabled = false) →
    ∀ (i : Nat) (p : Peripheral) (out : List Msg),
      List.Forall₂
        (fun a b => b = a ∨ b = { a with enabled := true, elapsedMs := 0 })
        pumps (pumpLoop tPrev t d i pumps p out).1 := by
  induction pumps with
  | nil => intro _ i p out; exact List.Forall₂.nil
  | cons pd rest ih =>
    intro hall i p out
    have hpd : pd.enabled = false := hall pd (List.mem_cons_self pd rest)
    simp only [pumpLoop]
    refine List.Forall₂.cons ?_ (ih (fun x hx => hall x (List.mem_cons_of_mem pd hx)) _ _ _)
    rw [pumpBody_inactive i tPrev t d ⟨pd, p, out⟩ hpd]
    rcases triggerLoop_cases i tPrev t pd.numTriggerTimes 0 ⟨pd, p, out⟩ with
      ⟨e, _⟩ | ⟨e, _⟩
    · simp only at e ⊢
      rw [e]
      exact Or.inl rfl
    · simp only at e ⊢
      rw [e]
      exact Or.inr rfl

/-- C14: in the first iteration, whatever the monotonic sample taken before
the loop, the first in-loop sample and the other inputs are, every pump record
is either left as it was (counter included) or activated with counter 0: no
monotonic time is added to any counter, every pump being inactive when the
first scheduler step runs. -/
theorem first_iteration_adds_no_time (u0 u1 : PumpData) (p : Peripheral) (tInit : Time)
    (ts0 : Timespec) (inp : Input) :
    (∀ pd ∈ (startup (configure u0 u1) p tInit ts0).pumpData, pd.enabled = false) ∧
    List.Forall₂
      (fun a b => b = a ∨ b = { a with enabled := true, elapsedMs := 0 })
      (startup (configure u0 u1) p tInit ts0).pumpData
      (loop [inp] (startup (configure u0 u1) p tInit ts0)).1.pumpData ∧
    List.Forall₂
      (fun a b => b.elapsedMs = a.elapsedMs ∨ (b.enabled = true ∧ b.elapsedMs = 0))
      (configure u0 u1)
      (loop [inp] (startup (configure u0 u1) p tInit ts0)).1.pumpData := by
  have hall : ∀ pd ∈ (startup (configure u0 u1) p tInit ts0).pumpData,
      pd.enabled = false := by
    intro pd hpd
    simp only [startup, configure, List.mem_cons, List.mem_singleton,
      List.not_mem_nil, or_false] at hpd
    rcases hpd with e | e <;> rw [e]
  have hmain : List.Forall₂
      (fun a b => b = a ∨ b = { a with enabled := true, elapsedMs := 0 })
      (startup (configure u0 u1) p tInit ts0).pumpData
      (loop [inp] (startup (configure u0 u1) p tInit ts0)).1.pumpData := by
    by_cases hx : (ReadPin (hwLevel (startup (configure u0 u1) p tInit ts0).p
        inp.levExit) PIN_EXIT).1 = true
    · simp only [loop, iteration, hx, if_true]
      exact List.forall₂_same.2 (fun a _ => Or.inl rfl)
    · simp only [loop, iteration, hx, if_false]
      exact pumpLoop_all_inactive _ _ _ _ hall _ _ _
  refine ⟨hall, hmain, ?_⟩
  have hpd : (startup (configure u0 u1) p tInit ts0).pumpData = configure u0 u1 := rfl
  rw [hpd] at hmain
  refine List.Forall₂.imp ?_ hmain
  intro a b hab
  rcases hab with e | e
  · left; rw [e]
  · right; rw [e]; exact ⟨rfl, rfl⟩

theorem pumpBody_durationMs (i : Nat) (tPrev t : Time) (d : Timespec) (s : Sched) :
    (pumpBody i tPrev t d s).pd.durationMs = s.pd.durationMs := by
  cases h : s.pd.enabled with
  | true =>
    rcases pumpBody_active_cases i tPrev t d s h with ⟨_, e⟩ | ⟨_, e⟩ <;> rw [e]
  | false =>
    rw [pumpBody_inactive i tPrev t d s h]
    rcases triggerLoop_cases i tPrev t s.pd.numTriggerTimes 0 s with ⟨e, _⟩ | ⟨e, _⟩ <;>
      rw [e]

/-- After any scheduler step of a pump with positive duration, an enabled pump
has its counter below the duration. -/
theorem pumpBody_below_duration (i : Nat) (tPrev t : Time) (d : Timespec) (s : Sched)
    (hD : 0 < s.pd.durationMs) (hen : (pumpBody i tPrev t d s).pd.enabled = true) :
    (pumpBody i tPrev t d s).pd.elapsedMs < s.pd.durationMs := by
  cases h : s.pd.enabled with
  | true =>
    rcases pumpBody_active_cases i tPrev t d s h with ⟨_, e⟩ | ⟨hc, e⟩
    · rw [e] at hen; exact absurd hen Bool.false_ne_true
    · rw [e]; exact hc
  | false =>
    rw [pumpBody_inactive i tPrev t d s h] at hen ⊢
    rcases triggerLoop_cases i tPrev t s.pd.numTriggerTimes 0 s with ⟨e, _⟩ | ⟨e, _⟩
    · rw [e, h] at hen; exact absurd hen Bool.false_ne_true
    · rw [e]; exact hD

theorem pumpRun_durationMs (i : Nat) (steps : List (Time × Time × Timespec)) :
    ∀ s : Sched, (pumpRun i steps s).pd.durationMs = s.pd.durationMs := by
  induction steps with
  | nil => intro s; rfl
  | cons step rest ih =>
    intro s
    simp only [pumpRun]
    rw [ih, pumpBody_durationMs]

/-- Along a run of scheduler steps of a pump with positive duration, an
enabled pump has its counter below the duration whenever it had at the start. -/
theorem pumpRun_below_duration (i : Nat) (steps : List (Time × Time × Timespec)) :
    ∀ s : Sched, 0 < s.pd.durationMs →
      (s.pd.enabled = true → s.pd.elapsedMs < s.pd.durationMs) →
      (pumpRun i steps s).pd.enabled = true →
      (pumpRun i steps s).pd.elapsedMs < s.pd.durationMs := by
  induction steps with
  | nil => intro s _ hinv hen; exact hinv hen
  | cons step rest ih =>
    intro s hD _ hen
    simp only [pumpRun] at hen ⊢
    have hd := pumpBody_durationMs i step.1 step.2.1 step.2.2 s
    have := ih (pumpBody i step.1 step.2.1 step.2.2 s) (by rw [hd]; exact hD)
      (fun h => by rw [hd]; exact pumpBody_below_duration i _ _ _ s hD h) hen
    rw [hd] at this
    exact this

/-- Along a run of a pump with duration `D > 0` that starts inactive, an active
pump has its counter strictly below `D`; and when the next step, with a
non-negative delta worth `ms` milliseconds and no wraparound, deactivates the
pump, the counter `c` it leaves satisfies `D ≤ c < D + ms` and the line printed
shows `printedInt c`. -/
theorem pumpRun_deactivation_bounds (i : Nat) (steps : List (Time × Time × Timespec))
    (s : Sched) (hD : 0 < s.pd.durationMs) (h0 : s.pd.enabled = false) :
    ((pumpRun i steps s).pd.enabled = true →
      (pumpRun i steps s).pd.elapsedMs < s.pd.durationMs) ∧
    (∀ (tPrev t : Time) (d : Timespec), 0 ≤ d.tv_sec → 0 ≤ d.tv_nsec →
      (pumpRun i steps s).pd.enabled = true →
      (pumpRun i steps s).pd.elapsedMs
        + (d.tv_sec.toNat * 1000 + d.tv_nsec.toNat / 1000000) < UINT_RANGE →
      (pumpBody i tPrev t d (pumpRun i steps s)).pd.enabled = false →
      (pumpBody i tPrev t d (pumpRun i steps s)).out =
        (pumpRun i steps s).out ++
          [Msg.pumpOff i t
            (printedInt (pumpBody i tPrev t d (pumpRun i steps s)).pd.elapsedMs)] ∧
      s.pd.durationMs ≤ (pumpBody i tPrev t d (pumpRun i steps s)).pd.elapsedMs ∧
      (pumpBody i tPrev t d (pumpRun i steps s)).pd.elapsedMs <
        s.pd.durationMs + (d.tv_sec.toNat * 1000 + d.tv_nsec.toNat / 1000000)) := by
  have hinv : (pumpRun i steps s).pd.enabled = true →
      (pumpRun i steps s).pd.elapsedMs < s.pd.durationMs :=
    pumpRun_below_duration i steps s hD
      (fun h => by rw [h0] at h; exact absurd h Bool.false_ne_true)
  refine ⟨hinv, ?_⟩
  intro tPrev t d hs hn hen hw hoff
  have hlt := hinv hen
  have hup := elapsed_update (pumpRun i steps s).pd.elapsedMs d.tv_sec d.tv_nsec hs hn
  have hdur := pumpRun_durationMs i steps s
  rcases pumpBody_active_cases i tPrev t d (pumpRun i steps s) hen with ⟨hc, e⟩ | ⟨_, e⟩
  · rw [e]
    refine ⟨rfl, ?_, ?_⟩
    · show s.pd.durationMs ≤ toUInt _
      rw [← hdur]; exact hc
    · show toUInt _ < _
      rw [hup, Nat.mod_eq_of_lt hw]
      omega
  · rw [e] at hoff
    simp only at hoff
    rw [hen] at hoff
    exact absurd hoff (by decide)

/-- C15 fails on the code at the reported value, which lines 221-222 print
with `%d` although the counter is an `unsigned int`. A pump with duration
3000000000 ms, active with counter 2999999600 (below the duration) and stepped
by 0.5 s without wraparound, is deactivated with counter 3000000100, inside
`[D, D + 500)`, but the line shows -1294967196. Likewise the pump with duration
10000 ms, activated at 09:00:00 and then stepped once by 2147484 s, is
deactivated with counter 2147484000 and the line shows -2147483296. -/
theorem off_line_shows_negative :
    0 < longPump.durationMs ∧ longPump.enabled = true ∧
    longPump.elapsedMs < longPump.durationMs ∧
    longPump.elapsedMs + 500 < UINT_RANGE ∧
    (pumpBody 0 ⟨9, 0, 9⟩ ⟨9, 0, 10⟩ ⟨0, 500000000⟩
        ⟨longPump, blankBlock, []⟩).pd.enabled = false ∧
    (pumpBody 0 ⟨9, 0, 9⟩ ⟨9, 0, 10⟩ ⟨0, 500000000⟩
        ⟨longPump, blankBlock, []⟩).pd.elapsedMs = 3000000100 ∧
    (pumpBody 0 ⟨9, 0, 9⟩ ⟨9, 0, 10⟩ ⟨0, 500000000⟩
        ⟨longPump, blankBlock, []⟩).out = [Msg.pumpOff 0 ⟨9, 0, 10⟩ (-1294967196)] ∧
    ¬ ((longPump.durationMs : Int) ≤ -1294967196) ∧
    (pumpRun 0 [(⟨8, 59, 59⟩, ⟨9, 0, 0⟩, ⟨0, 500000000⟩),
        (⟨9, 0, 0⟩, ⟨9, 0, 0⟩, ⟨2147484, 0⟩)]
        ⟨idlePump, blankBlock, []⟩).pd.elapsedMs = 2147484000 ∧
    (pumpRun 0 [(⟨8, 59, 59⟩, ⟨9, 0, 0⟩, ⟨0, 500000000⟩),
        (⟨9, 0, 0⟩, ⟨9, 0, 0⟩, ⟨2147484, 0⟩)]
        ⟨idlePump, blankBlock, []⟩).out =
      [Msg.pumpOn 0 ⟨9, 0, 0⟩, Msg.pumpOff 0 ⟨9, 0, 0⟩ (-2147483296)] := by
  decide

/-- C16 fails on the code: on the first iteration `tPrev` takes the
indeterminate initial content of `t`. With current sample 12:00:00, which is
no trigger time of either pump, pump 0 is activated when that content is
09:00:00 and is not when it is 00:00:00. -/
theorem first_poll_reads_uninitialised_sample :
    (∀ pd ∈ configure stalePump stalePump, ∀ j, j < pd.numTriggerTimes →
      pd.triggerTimes j ≠ ⟨12, 0, 0⟩) ∧
    enabledFlags (loop [⟨0, 0, ⟨12, 0, 0⟩, ⟨100, 500000000⟩⟩]
      (startup (configure stalePump stalePump) blankBlock ⟨9, 0, 0⟩ ⟨100, 0⟩)).1
      = [true, false] ∧
    (loop [⟨0, 0, ⟨12, 0, 0⟩, ⟨100, 500000000⟩⟩]
      (startup (configure stalePump stalePump) blankBlock ⟨9, 0, 0⟩ ⟨100, 0⟩)).1.out
      = [Msg.pumpOn 0 ⟨12, 0, 0⟩] ∧
    enabledFlags (loop [⟨0, 0, ⟨12, 0, 0⟩, ⟨100, 500000000⟩⟩]
      (startup (configure stalePump stalePump) blankBlock ⟨0, 0, 0⟩ ⟨100, 0⟩)).1
      = [false, false] := by
  refine ⟨?_, by decide, by decide, by decide⟩
  intro pd hpd j hj
  simp only [configure, List.mem_cons, List.mem_singleton, List.not_mem_nil,
    or_false] at hpd
  rcases hpd with e | e
  · subst e
    have hj2 : j < 2 := hj
    interval_cases j <;> simp [Function.update]
  · subst e
    have hj2 : j < 3 := hj
    interval_cases j <;> simp [Function.update]

/-! ## Lemmas on the last command of a pin -/

theorem lastCmd_append (q : Nat) (tr l : List Access) :
    lastCmd q (tr ++ l) =
      l.foldl (fun acc a => match cmdOn q a with
        | some b => some b
        | none => acc) (lastCmd q tr) := by
  simp only [lastCmd, List.foldl_append]

theorem lastCmd_append_none (q : Nat) (tr l : List Access)
    (h : ∀ a ∈ l, cmdOn q a = none) : lastCmd q (tr ++ l) = lastCmd q tr := by
  rw [lastCmd_append]
  induction l generalizing tr with
  | nil => rfl
  | cons a rest ih =>
    simp only [List.foldl_cons, h a (List.mem_cons_self a rest)]
    exact ih tr (fun x hx => h x (List.mem_cons_of_mem a hx))

theorem lastCmd_append_some (q : Nat) (tr : List Access) (a : Access) (b : Bool)
    (h : cmdOn q a = some b) : lastCmd q (tr ++ [a]) = some b := by
  rw [lastCmd_append]
  simp only [List.foldl_cons, List.foldl_nil, h]

theorem cmdOn_load (q k : Nat) : cmdOn q (Access.load k) = none := rfl

theorem cmdOn_store_other_word (q k v : Nat) (h7 : k ≠ GPIO_SET) (h10 : k ≠ GPIO_CLEAR) :
    cmdOn q (Access.store k v) = none := by
  simp only [cmdOn, h7, h10, false_and, if_false]

theorem cmdOn_set_self (pin : Nat) (h : pin < 32) :
    cmdOn pin (Access.store GPIO_SET ((1 <<< pin) % UINT_RANGE)) = some true := by
  simp only [cmdOn, pin_word_testBit pin pin h, decide_True, and_self, if_true]

theorem cmdOn_clear_self (pin : Nat) (h : pin < 32) :
    cmdOn pin (Access.store GPIO_CLEAR ((1 <<< pin) % UINT_RANGE)) = some false := by
  have hne : ¬ GPIO_CLEAR = GPIO_SET := by decide
  simp only [cmdOn, pin_word_testBit pin pin h, decide_True, and_self, if_true, hne,
    false_and, if_false]

theorem cmdOn_set_other (pin q : Nat) (h : pin < 32) (hne : q ≠ pin) :
    cmdOn q (Access.store GPIO_SET ((1 <<< pin) % UINT_RANGE)) = none := by
  have hd : decide (pin = q) = false := decide_eq_false (fun e => hne e.symm)
  simp [cmdOn, pin_word_testBit pin q h, hd]

theorem cmdOn_clear_other (pin q : Nat) (h : pin < 32) (hne : q ≠ pin) :
    cmdOn q (Access.store GPIO_CLEAR ((1 <<< pin) % UINT_RANGE)) = none := by
  have hd : decide (pin = q) = false := decide_eq_false (fun e => hne e.symm)
  simp [cmdOn, pin_word_testBit pin q h, hd]

theorem SetPin_lastCmd_other (p : Peripheral) (pin q : Nat) (h : pin < 32) (hne : q ≠ pin) :
    lastCmd q (SetPin p pin).trace = lastCmd q p.trace := by
  simp only [SetPin, Peripheral.store]
  apply lastCmd_append_none
  intro a ha
  rw [List.mem_singleton.1 ha]
  exact cmdOn_set_other pin q h hne

theorem ClearPin_lastCmd_other (p : Peripheral) (pin q : Nat) (h : pin < 32)
    (hne : q ≠ pin) : lastCmd q (ClearPin p pin).trace = lastCmd q p.trace := by
  simp only [ClearPin, Peripheral.store]
  apply lastCmd_append_none
  intro a ha
  rw [List.mem_singleton.1 ha]
  exact cmdOn_clear_other pin q h hne

theorem ClearPin_lastCmd_self (p : Peripheral) (pin : Nat) (h : pin < 32) :
    lastCmd pin (ClearPin p pin).trace = some false := by
  simp only [ClearPin, Peripheral.store]
  exact lastCmd_append_some pin _ _ _ (cmdOn_clear_self pin h)

theorem SetPin_lastCmd_self (p : Peripheral) (pin : Nat) (h : pin < 32) :
    lastCmd pin (SetPin p pin).trace = some true := by
  simp only [SetPin, Peripheral.store]
  exact lastCmd_append_some pin _ _ _ (cmdOn_set_self pin h)

theorem ReadPin_lastCmd (p : Peripheral) (pin q : Nat) :
    lastCmd q (ReadPin p pin).2.trace = lastCmd q p.trace := by
  simp only [ReadPin, Peripheral.load]
  apply lastCmd_append_none
  intro a ha
  rw [List.mem_singleton.1 ha]
  rfl

/-- The direction functions of a pin below 32 command no level on any pin. -/
theorem SetOutputPin_lastCmd (p : Peripheral) (pin q : Nat) (h : pin < 32) :
    lastCmd q (SetOutputPin p pin).trace = lastCmd q p.trace := by
  have h7 : pin / 10 ≠ GPIO_SET := by simp only [GPIO_SET]; omega
  have h10 : pin / 10 ≠ GPIO_CLEAR := by simp only [GPIO_CLEAR]; omega
  simp only [SetOutputPin, Peripheral.load, Peripheral.store, List.append_assoc]
  apply lastCmd_append_none
  intro a ha
  simp only [List.singleton_append, List.mem_cons, List.mem_singleton,
    List.not_mem_nil, or_false] at ha
  rcases ha with e | e | e | e <;> rw [e]
  · rfl
  · exact cmdOn_store_other_word q _ _ h7 h10
  · rfl
  · exact cmdOn_store_other_word q _ _ h7 h10

theorem SetInputPin_lastCmd (p : Peripheral) (pin q : Nat) (h : pin < 32) :
    lastCmd q (SetInputPin p pin).trace = lastCmd q p.trace := by
  have h7 : pin / 10 ≠ GPIO_SET := by simp only [GPIO_SET]; omega
  have h10 : pin / 10 ≠ GPIO_CLEAR := by simp only [GPIO_CLEAR]; omega
  simp only [SetInputPin, Peripheral.load, Peripheral.store, List.append_assoc]
  apply lastCmd_append_none
  intro a ha
  simp only [List.singleton_append, List.mem_cons, List.mem_singleton,
    List.not_mem_nil, or_false] at ha
  rcases ha with e | e <;> rw [e]
  · rfl
  · exact cmdOn_store_other_word q _ _ h7 h10

theorem pumpBody_pin (i : Nat) (tPrev t : Time) (d : Timespec) (s : Sched) :
    (pumpBody i tPrev t d s).pd.pin = s.pd.pin := by
  cases h : s.pd.enabled with
  | true =>
    rcases pumpBody_active_cases i tPrev t d s h with ⟨_, e⟩ | ⟨_, e⟩ <;> rw [e]
  | false =>
    rw [pumpBody_inactive i tPrev t d s h]
    rcases triggerLoop_cases i tPrev t s.pd.numTriggerTimes 0 s with ⟨e, _⟩ | ⟨e, _⟩ <;>
      rw [e]

/-- A scheduler step of one pump commands no level on any other pin. -/
theorem pumpBody_lastCmd_other (i : Nat) (tPrev t : Time) (d : Timespec) (s : Sched)
    (q : Nat) (h : s.pd.pin < 32) (hne : q ≠ s.pd.pin) :
    lastCmd q (pumpBody i tPrev t d s).p.trace = lastCmd q s.p.trace := by
  cases hen : s.pd.enabled with
  | true =>
    rcases pumpBody_active_cases i tPrev t d s hen with ⟨_, e⟩ | ⟨_, e⟩ <;> rw [e]
    exact ClearPin_lastCmd_other s.p s.pd.pin q h hne
  | false =>
    rw [pumpBody_inactive i tPrev t d s hen]
    rcases triggerLoop_cases i tPrev t s.pd.numTriggerTimes 0 s with ⟨e, _⟩ | ⟨e, _⟩ <;>
      rw [e]
    exact SetPin_lastCmd_other s.p s.pd.pin q h hne

/-- A scheduler step keeps the last command on the pump's pin equal to its
enabled flag. -/
theorem pumpBody_lastCmd_self (i : Nat) (tPrev t : Time) (d : Timespec) (s : Sched)
    (h : s.pd.pin < 32) (hc : lastCmd s.pd.pin s.p.trace = some s.pd.enabled) :
    lastCmd s.pd.pin (pumpBody i tPrev t d s).p.trace =
      some (pumpBody i tPrev t d s).pd.enabled := by
  cases hen : s.pd.enabled with
  | true =>
    rcases pumpBody_active_cases i tPrev t d s hen with ⟨_, e⟩ | ⟨_, e⟩ <;> rw [e]
    · exact ClearPin_lastCmd_self s.p s.pd.pin h
    · exact hc
  | false =>
    rw [pumpBody_inactive i tPrev t d s hen]
    rcases triggerLoop_cases i tPrev t s.pd.numTriggerTimes 0 s with ⟨e, _⟩ | ⟨e, _⟩ <;>
      rw [e]
    · exact hc
    · exact SetPin_lastCmd_self s.p s.pd.pin h

/-- The record a scheduler step leaves depends on the pump's own record only. -/
theorem pumpBody_pd_own (i i2 : Nat) (tPrev t : Time) (d : Timespec) (pd : PumpData)
    (p p2 : Peripheral) (out out2 : List Msg) :
    (pumpBody i tPrev t d ⟨pd, p, out⟩).pd = (pumpBody i2 tPrev t d ⟨pd, p2, out2⟩).pd := by
  cases hen : pd.enabled with
  | true =>
    rcases pumpBody_active_cases i tPrev t d ⟨pd, p, out⟩ hen with ⟨c1, e1⟩ | ⟨c1, e1⟩ <;>
    rcases pumpBody_active_cases i2 tPrev t d ⟨pd, p2, out2⟩ hen with
      ⟨c2, e2⟩ | ⟨c2, e2⟩
    · rw [e1, e2]
    · simp only at c1 c2; omega
    · simp only at c1 c2; omega
    · rw [e1, e2]
  | false =>
    rw [pumpBody_inactive i tPrev t d ⟨pd, p, out⟩ hen,
      pumpBody_inactive i2 tPrev t d ⟨pd, p2, out2⟩ hen]
    rcases triggerLoop_cases i tPrev t pd.numTriggerTimes 0 ⟨pd, p, out⟩ with
      ⟨e1, m1⟩ | ⟨e1, k, _, hk, hit⟩ <;>
    rcases triggerLoop_cases i2 tPrev t pd.numTriggerTimes 0 ⟨pd, p2, out2⟩ with
      ⟨e2, m2⟩ | ⟨e2, k2, _, hk2, hit2⟩
    · simp only at e1 e2 ⊢; rw [e1, e2]
    · exfalso
      have := m1 k2 (Nat.zero_le _) hk2
      simp only at this hit2
      rw [hit2] at this
      exact absurd this (by decide)
    · exfalso
      have := m2 k (Nat.zero_le _) hk
      simp only at this hit
      rw [hit] at this
      exact absurd this (by decide)
    · simp only at e1 e2 ⊢; rw [e1, e2]

theorem pumpLoop_pins (tPrev t : Time) (d : Timespec) (pumps : List PumpData) :
    ∀ (i : Nat) (p : Peripheral) (out : List Msg),
      (pumpLoop tPrev t d i pumps p out).1.map (fun pd => pd.pin) =
        pumps.map (fun pd => pd.pin) := by
  induction pumps with
  | nil => intro i p out; rfl
  | cons pd rest ih =>
    intro i p out
    simp only [pumpLoop, List.map_cons, ih, pumpBody_pin]

/-- Each record the pump loop leaves is the scheduler step of that pump's own
record. -/
theorem pumpLoop_own (tPrev t : Time) (d : Timespec) (pumps : List PumpData) :
    ∀ (i : Nat) (p : Peripheral) (out : List Msg),
      (pumpLoop tPrev t d i pumps p out).1 =
        pumps.map (fun pd => (pumpBody 0 tPrev t d ⟨pd, blankBlock, []⟩).pd) := by
  induction pumps with
  | nil => intro i p out; rfl
  | cons pd rest ih =>
    intro i p out
    simp only [pumpLoop, List.map_cons, ih]
    rw [pumpBody_pd_own i 0 tPrev t d pd p blankBlock out []]

theorem pumpLoop_lastCmd_other (tPrev t : Time) (d : Timespec) (q : Nat)
    (pumps : List PumpData) :
    (∀ pd ∈ pumps, pd.pin < 32 ∧ q ≠ pd.pin) →
    ∀ (i : Nat) (p : Peripheral) (out : List Msg),
      lastCmd q (pumpLoop tPrev t d i pumps p out).2.1.trace = lastCmd q p.trace := by
  induction pumps with
  | nil => intro _ i p out; rfl
  | cons pd rest ih =>
    intro h i p out
    simp only [pumpLoop]
    rw [ih (fun x hx => h x (List.mem_cons_of_mem pd hx))]
    have hpd := h pd (List.mem_cons_self pd rest)
    exact pumpBody_lastCmd_other i tPrev t d ⟨pd, p, out⟩ q hpd.1 hpd.2

/-- The pump loop keeps, for every pump, the last command on its pin equal to
its enabled flag, when the pins are below 32 and pairwise distinct. -/
theorem pumpLoop_consistent (tPrev t : Time) (d : Timespec) (pumps : List PumpData) :
    (pumps.map (fun pd => pd.pin)).Nodup → (∀ pd ∈ pumps, pd.pin < 32) →
    ∀ (i : Nat) (p : Peripheral) (out : List Msg),
      (∀ pd ∈ pumps, lastCmd pd.pin p.trace = some pd.enabled) →
      ∀ pd ∈ (pumpLoop tPrev t d i pumps p out).1,
        lastCmd pd.pin (pumpLoop tPrev t d i pumps p out).2.1.trace = some pd.enabled := by
  induction pumps with
  | nil => intro _ _ i p out _ pd hpd; exact absurd hpd (List.not_mem_nil pd)
  | cons a rest ih =>
    intro hnd hlt i p out hc pd hpd
    rw [List.map_cons, List.nodup_cons] at hnd
    have ha32 : a.pin < 32 := hlt a (List.mem_cons_self a rest)
    have hrest32 : ∀ x ∈ rest, x.pin < 32 := fun x hx => hlt x (List.mem_cons_of_mem a hx)
    have hane : ∀ x ∈ rest, x.pin ≠ a.pin := by
      intro x hx e
      exact hnd.1 (List.mem_map.2 ⟨x, hx, e⟩)
    simp only [pumpLoop] at hpd ⊢
    rcases List.mem_cons.1 hpd with e | hmem
    · rw [e, pumpBody_pin]
      rw [pumpLoop_lastCmd_other tPrev t d a.pin rest
        (fun x hx => ⟨hrest32 x hx, fun e2 => hane x hx e2.symm⟩)]
      exact pumpBody_lastCmd_self i tPrev t d ⟨a, p, out⟩ ha32
        (hc a (List.mem_cons_self a rest))
    · apply ih hnd.2 hrest32 (i + 1) _ _ _ pd hmem
      intro x hx
      rw [pumpBody_lastCmd_other i tPrev t d ⟨a, p, out⟩ x.pin ha32 (hane x hx)]
      exact hc x (List.mem_cons_of_mem a hx)

theorem setupPumps_lastCmd_other (q : Nat) (pumps : List PumpData) :
    (∀ pd ∈ pumps, pd.pin < 32 ∧ q ≠ pd.pin) →
    ∀ p : Peripheral, lastCmd q (setupPumps pumps p).trace = lastCmd q p.trace := by
  induction pumps with
  | nil => intro _ p; rfl
  | cons a rest ih =>
    intro h p
    have ha := h a (List.mem_cons_self a rest)
    simp only [setupPumps]
    rw [ih (fun x hx => h x (List.mem_cons_of_mem a hx)),
      ClearPin_lastCmd_other _ a.pin q ha.1 ha.2, SetOutputPin_lastCmd _ a.pin q ha.1]

/-- After the pin set-up every pump's pin has been commanded low last. -/
theorem setupPumps_lastCmd (pumps : List PumpData) :
    (pumps.map (fun pd => pd.pin)).Nodup → (∀ pd ∈ pumps, pd.pin < 32) →
    ∀ p : Peripheral, ∀ pd ∈ pumps, lastCmd pd.pin (setupPumps pumps p).trace = some false := by
  induction pumps with
  | nil => intro _ _ p pd hpd; exact absurd hpd (List.not_mem_nil pd)
  | cons a rest ih =>
    intro hnd hlt p pd hpd
    rw [List.map_cons, List.nodup_cons] at hnd
    have ha32 : a.pin < 32 := hlt a (List.mem_cons_self a rest)
    have hrest32 : ∀ x ∈ rest, x.pin < 32 := fun x hx => hlt x (List.mem_cons_of_mem a hx)
    simp only [setupPumps]
    rcases List.mem_cons.1 hpd with e | hmem
    · rw [e, setupPumps_lastCmd_other a.pin rest
        (fun x hx => ⟨hrest32 x hx, fun e2 => hnd.1 (List.mem_map.2 ⟨x, hx, e2.symm⟩)⟩)]
      exact ClearPin_lastCmd_self _ a.pin ha32
    · exact ih hnd.2 hrest32 _ pd hmem

/-- One iteration of the loop keeps the pin list and, for every pump, the last
command on its pin equal to its enabled flag. -/
theorem loop_consistent (inputs : List Input) :
    ∀ s : LoopState,
      (s.pumpData.map (fun pd => pd.pin)).Nodup →
      (∀ pd ∈ s.pumpData, pd.pin < 32 ∧ pd.pin ≠ PIN_PING_OUT) →
      (∀ pd ∈ s.pumpData, lastCmd pd.pin s.p.trace = some pd.enabled) →
      (loop inputs s).1.pumpData.map (fun pd => pd.pin) =
        s.pumpData.map (fun pd => pd.pin) ∧
      ∀ pd ∈ (loop inputs s).1.pumpData,
        lastCmd pd.pin (loop inputs s).1.p.trace = some pd.enabled := by
  induction inputs with
  | nil => intro s _ _ hc; exact ⟨rfl, hc⟩
  | cons inp rest ih =>
    intro s hnd hpins hc
    by_cases hx : (ReadPin (hwLevel s.p inp.levExit) PIN_EXIT).1 = true
    · simp only [loop, iteration, hx, if_true]
      refine ⟨trivial, ?_⟩
      intro pd hpd
      rw [ReadPin_lastCmd]
      exact hc pd hpd
    · simp only [loop, iteration, hx, if_false]
      have hping : ∀ q, q ≠ PIN_PING_OUT →
          lastCmd q (if (ReadPin (hwLevel (ReadPin (hwLevel s.p inp.levExit) PIN_EXIT).2
              inp.levPing) PIN_PING_IN).1 = true
            then SetPin (ReadPin (hwLevel (ReadPin (hwLevel s.p inp.levExit) PIN_EXIT).2
              inp.levPing) PIN_PING_IN).2 PIN_PING_OUT
            else ClearPin (ReadPin (hwLevel (ReadPin (hwLevel s.p inp.levExit) PIN_EXIT).2
              inp.levPing) PIN_PING_IN).2 PIN_PING_OUT).trace = lastCmd q s.p.trace := by
        intro q hq
        have h7 : PIN_PING_OUT < 32 := by decide
        have hbase : lastCmd q (ReadPin (hwLevel (ReadPin (hwLevel s.p inp.levExit)
            PIN_EXIT).2 inp.levPing) PIN_PING_IN).2.trace = lastCmd q s.p.trace := by
          rw [ReadPin_lastCmd]
          show lastCmd q (ReadPin (hwLevel s.p inp.levExit) PIN_EXIT).2.trace = _
          rw [ReadPin_lastCmd]
          rfl
        split_ifs
        · rw [SetPin_lastCmd_other _ PIN_PING_OUT q h7 hq]; exact hbase
        · rw [ClearPin_lastCmd_other _ PIN_PING_OUT q h7 hq]; exact hbase
      generalize (if (ReadPin (hwLevel (ReadPin (hwLevel s.p inp.levExit) PIN_EXIT).2
              inp.levPing) PIN_PING_IN).1 = true
            then SetPin (ReadPin (hwLevel (ReadPin (hwLevel s.p inp.levExit) PIN_EXIT).2
              inp.levPing) PIN_PING_IN).2 PIN_PING_OUT
            else ClearPin (ReadPin (hwLevel (ReadPin (hwLevel s.p inp.levExit) PIN_EXIT).2
              inp.levPing) PIN_PING_IN).2 PIN_PING_OUT) = p2 at hping ⊢
      have hpl := pumpLoop_pins s.t inp.t (tsDiff inp.ts s.ts) s.pumpData 0 p2 s.out
      have hcons := pumpLoop_consistent s.t inp.t (tsDiff inp.ts s.ts) s.pumpData hnd
        (fun pd hpd => (hpins pd hpd).1) 0 p2 s.out
        (fun pd hpd => by rw [hping pd.pin (hpins pd hpd).2]; exact hc pd hpd)
      have hpins2 : ∀ pd ∈ (pumpLoop s.t inp.t (tsDiff inp.ts s.ts) 0 s.pumpData
          p2 s.out).1, pd.pin < 32 ∧ pd.pin ≠ PIN_PING_OUT := by
        intro pd hpd
        have hm : pd.pin ∈ s.pumpData.map (fun x => x.pin) := by
          rw [← hpl]; exact List.mem_map.2 ⟨pd, hpd, rfl⟩
        obtain ⟨x, hx1, hx2⟩ := List.mem_map.1 hm
        have := hpins x hx1
        rw [hx2] at this
        exact this
      have hnd2 : ((pumpLoop s.t inp.t (tsDiff inp.ts s.ts) 0 s.pumpData
          p2 s.out).1.map (fun pd => pd.pin)).Nodup := by rw [hpl]; exact hnd
      obtain ⟨h1, h2⟩ := ih
        { pumpData := (pumpLoop s.t inp.t (tsDiff inp.ts s.ts) 0 s.pumpData p2 s.out).1,
          p := (pumpLoop s.t inp.t (tsDiff inp.ts s.ts) 0 s.pumpData p2 s.out).2.1,
          t := inp.t, ts := inp.ts,
          out := (pumpLoop s.t inp.t (tsDiff inp.ts s.ts) 0 s.pumpData p2 s.out).2.2 }
        hnd2 hpins2 hcons
      exact ⟨h1.trans hpl, h2⟩

/-! ## Theorem on pump state and commanded pin level -/

/-- C18: for pumps that start disabled on pairwise distinct pins below 32,
none of them the ping output pin: after the set-up the last command on every
pump's pin is clear and the pump is disabled, and after any number of
iterations of the loop the last set or clear command on every pump's pin is
set exactly when the pump is enabled. A scheduler step of one pump commands
no level on any other pin, and the record the pump loop leaves for a pump is
the step of that pump's own record. -/
theorem pin_matches_enabled (pumps : List PumpData) (p : Peripheral) (tInit : Time)
    (ts0 : Timespec) (inputs : List Input)
    (hnd : (pumps.map (fun pd => pd.pin)).Nodup)
    (hpins : ∀ pd ∈ pumps, pd.pin < 32 ∧ pd.pin ≠ PIN_PING_OUT)
    (hoff : ∀ pd ∈ pumps, pd.enabled = false) :
    (∀ pd ∈ (startup pumps p tInit ts0).pumpData,
      lastCmd pd.pin (startup pumps p tInit ts0).p.trace = some false ∧
      pd.enabled = false) ∧
    (∀ pd ∈ (loop inputs (startup pumps p tInit ts0)).1.pumpData,
      lastCmd pd.pin (loop inputs (startup pumps p tInit ts0)).1.p.trace =
        some pd.enabled) ∧
    (∀ (i : Nat) (tPrev t : Time) (d : Timespec) (s : Sched) (q : Nat),
      s.pd.pin < 32 → q ≠ s.pd.pin →
      lastCmd q (pumpBody i tPrev t d s).p.trace = lastCmd q s.p.trace) ∧
    (∀ (tPrev t : Time) (d : Timespec) (i : Nat) (pl : List PumpData) (p2 : Peripheral)
      (out : List Msg),
      (pumpLoop tPrev t d i pl p2 out).1 =
        pl.map (fun pd => (pumpBody 0 tPrev t d ⟨pd, blankBlock, []⟩).pd)) := by
  have hstart : ∀ pd ∈ (startup pumps p tInit ts0).pumpData,
      lastCmd pd.pin (startup pumps p tInit ts0).p.trace = some false ∧
      pd.enabled = false := by
    intro pd hpd
    exact ⟨setupPumps_lastCmd pumps hnd (fun x hx => (hpins x hx).1) _ pd hpd,
      hoff pd hpd⟩
  refine ⟨hstart, ?_, ?_, ?_⟩
  · refine (loop_consistent inputs (startup pumps p tInit ts0) hnd hpins ?_).2
    intro pd hpd
    obtain ⟨h1, h2⟩ := hstart pd hpd
    rw [h1, h2]
  · intro i tPrev t d s q h32 hne
    exact pumpBody_lastCmd_other i tPrev t d s q h32 hne
  · intro tPrev t d i pl p2 out
    exact pumpLoop_own tPrev t d pl i p2 out

/-- Witness of C18 at the program's two pumps (pins 22 and 27) after the first
five polls of the simulated run, pump 0 running and pump 1 idle. -/
theorem pin_matches_enabled_witness :
    ((configure stalePump stalePump).map (fun pd => pd.pin)).Nodup ∧
    (∀ pd ∈ configure stalePump stalePump, pd.pin < 32 ∧ pd.pin ≠ PIN_PING_OUT) ∧
    (∀ pd ∈ configure stalePump stalePump, pd.enabled = false) ∧
    (∀ pd ∈ (loop (scenarioInputs.take 5)
        (startup (configure stalePump stalePump) blankBlock ⟨8, 59, 59⟩
          ⟨100, 0⟩)).1.pumpData,
      lastCmd pd.pin (loop (scenarioInputs.take 5)
        (startup (configure stalePump stalePump) blankBlock ⟨8, 59, 59⟩
          ⟨100, 0⟩)).1.p.trace = some pd.enabled) :=
  ⟨by decide, by decide, by decide,
   (pin_matches_enabled (configure stalePump stalePump) blankBlock ⟨8, 59, 59⟩ ⟨100, 0⟩
      (scenarioInputs.take 5) (by decide) (by decide) (by decide)).2.1⟩

/-! ## Lemmas on runs polled every 500 ms -/

theorem timeOfDay_inj (a b : Nat) (ha : a < 86400) (hb : b < 86400)
    (h : timeOfDay a = timeOfDay b) : a = b := by
  simp only [timeOfDay, Time.mk.injEq] at h
  omega

theorem wallSample_inj (start a b : Nat) (h : wallSample start a = wallSample start b) :
    (start + a / 2) % 86400 = (start + b / 2) % 86400 :=
  timeOfDay_inj _ _ (Nat.mod_lt _ (by norm_num)) (Nat.mod_lt _ (by norm_num)) h

theorem pollState_add (i start : Nat) (delta : Nat → Timespec) (k0 : Nat) (s0 : Sched)
    (n m : Nat) :
    pollState i start delta k0 s0 (n + m) =
      pollState i start delta (k0 + n) (pollState i start delta k0 s0 n) m := by
  induction m with
  | zero => rfl
  | succ m ih =>
    show pumpBody i (wallSample start (k0 + (n + m))) (wallSample start (k0 + (n + m) + 1))
        (delta (k0 + (n + m) + 1)) (pollState i start delta k0 s0 (n + m)) =
      pumpBody i (wallSample start (k0 + n + m)) (wallSample start (k0 + n + m + 1))
        (delta (k0 + n + m + 1))
        (pollState i start delta (k0 + n) (pollState i start delta k0 s0 n) m)
    rw [ih, Nat.add_assoc k0 n m]

theorem pollState_durationMs (i start : Nat) (delta : Nat → Timespec) (k0 : Nat)
    (s0 : Sched) (n : Nat) :
    (pollState i start delta k0 s0 n).pd.durationMs = s0.pd.durationMs := by
  induction n with
  | zero => rfl
  | succ n ih =>
    show (pumpBody _ _ _ _ _).pd.durationMs = _
    rw [pumpBody_durationMs, ih]

/-- An inactive pump none of whose trigger slots matches any sample of a stretch
of polls is left as it was by the stretch. -/
theorem pollState_idle (i start : Nat) (delta : Nat → Timespec) (k0 : Nat) (s : Sched)
    (hoff : s.pd.enabled = false) (m : Nat)
    (hmiss : ∀ j, j < m → ∀ slot, slot < s.pd.numTriggerTimes →
      IsTimeInRange (s.pd.triggerTimes slot) (wallSample start (k0 + j))
        (wallSample start (k0 + j + 1)) = false) :
    pollState i start delta k0 s m = s := by
  induction m with
  | zero => rfl
  | succ m ih =>
    show pumpBody _ _ _ _ (pollState i start delta k0 s m) = s
    rw [ih (fun j hj => hmiss j (by omega)), pumpBody_inactive _ _ _ _ s hoff]
    exact triggerLoop_miss _ _ _ _ 0 s
      (fun slot _ hslot => hmiss m (by omega) slot (by omega))

/-- A step that activates a pump leaves its counter at 0. -/
theorem pumpBody_activation_zero (i : Nat) (tPrev t : Time) (d : Timespec) (s : Sched)
    (hoff : s.pd.enabled = false) (hon : (pumpBody i tPrev t d s).pd.enabled = true) :
    (pumpBody i tPrev t d s).pd.elapsedMs = 0 := by
  rw [pumpBody_inactive i tPrev t d s hoff] at hon ⊢
  rcases triggerLoop_cases i tPrev t s.pd.numTriggerTimes 0 s with ⟨e, _⟩ | ⟨e, _⟩
  · rw [e, hoff] at hon; exact absurd hon Bool.false_ne_true
  · rw [e]

/-- A pump just activated, with duration above 500 ms, is still active after a
step whose delta is worth 500 ms. -/
theorem pumpBody_stays_active (i : Nat) (tPrev t : Time) (d : Timespec) (s : Sched)
    (hon : s.pd.enabled = true) (h0 : s.pd.elapsedMs = 0) (hD : 500 < s.pd.durationMs)
    (hs : 0 ≤ d.tv_sec) (hn : 0 ≤ d.tv_nsec)
    (hd : d.tv_sec.toNat * 1000 + d.tv_nsec.toNat / 1000000 = 500) :
    (pumpBody i tPrev t d s).pd.enabled = true := by
  have hup := elapsed_update s.pd.elapsedMs d.tv_sec d.tv_nsec hs hn
  rw [h0, hd] at hup
  have h500 : (0 + 500) % UINT_RANGE = 500 := by decide
  rw [h500] at hup
  rcases pumpBody_active_cases i tPrev t d s hon with ⟨hc, _⟩ | ⟨_, e⟩
  · rw [h0, hup] at hc; omega
  · rw [e]; exact hon

theorem pumpBody_triggers (i : Nat) (tPrev t : Time) (d : Timespec) (s : Sched) :
    (pumpBody i tPrev t d s).pd.numTriggerTimes = s.pd.numTriggerTimes ∧
    (pumpBody i tPrev t d s).pd.triggerTimes = s.pd.triggerTimes := by
  cases h : s.pd.enabled with
  | true =>
    rcases pumpBody_active_cases i tPrev t d s h with ⟨_, e⟩ | ⟨_, e⟩ <;> rw [e] <;>
      exact ⟨rfl, rfl⟩
  | false =>
    rw [pumpBody_inactive i tPrev t d s h]
    rcases triggerLoop_cases i tPrev t s.pd.numTriggerTimes 0 s with ⟨e, _⟩ | ⟨e, _⟩ <;>
      rw [e] <;> exact ⟨rfl, rfl⟩

theorem pollState_triggers (i start : Nat) (delta : Nat → Timespec) (k0 : Nat)
    (s0 : Sched) (n : Nat) :
    (pollState i start delta k0 s0 n).pd.numTriggerTimes = s0.pd.numTriggerTimes ∧
    (pollState i start delta k0 s0 n).pd.triggerTimes = s0.pd.triggerTimes := by
  induction n with
  | zero => exact ⟨rfl, rfl⟩
  | succ n ih =>
    have h := pumpBody_triggers i (wallSample start (k0 + n))
      (wallSample start (k0 + n + 1)) (delta (k0 + n + 1))
      (pollState i start delta k0 s0 n)
    exact ⟨h.1.trans ih.1, h.2.trans ih.2⟩

/-- Two polls at most 172797 polls apart whose previous or current sample is
the same time of day are at most two polls apart. -/
theorem same_occurrence (start x y : Nat) (T : Time) (hxy : x < y)
    (hwin : y ≤ x + 172797)
    (hT1 : T = wallSample start x ∨ T = wallSample start (x + 1))
    (hT2 : T = wallSample start y ∨ T = wallSample start (y + 1)) :
    y ≤ x + 2 := by
  rcases hT1 with h1 | h1 <;> rcases hT2 with h2 | h2 <;>
    (have h := wallSample_inj start _ _ (h1.symm.trans h2); omega)

/-! ## Theorems on repeated triggering -/

/-- C17, as stated, fails: the pump with triggers 09:00:00, 09:00:04 and
09:00:09 and duration 5 s, in the run started at 09:00:02 and polled every
500 ms, is activated by poll 16 while 09:00:09 is its current sample (the run
begun at 09:00:04 ends in poll 15), and again by poll 172815 while 09:00:09 is
its current sample, 172799 polls, that is 23 h 59 min 59.5 s, later. -/
theorem retrigger_within_a_day :
    500 < threeTriggerPump.durationMs ∧
    (threeTriggerRun 15).pd.enabled = false ∧
    (threeTriggerRun 16).pd.enabled = true ∧
    (⟨9, 0, 9⟩ : Time) = wallSample 32401 (1 + 16) ∧
    (threeTriggerRun 172814).pd.enabled = false ∧
    (threeTriggerRun 172815).pd.enabled = true ∧
    (⟨9, 0, 9⟩ : Time) = wallSample 32401 (1 + 172815) ∧
    172815 - 16 < 172800 := by
  have hoff : (pollState 0 32401 halfSecond 1 ⟨threeTriggerPump, blankBlock, []⟩
      26).pd.enabled = false := by decide
  have htrig := pollState_triggers 0 32401 halfSecond 1
    ⟨threeTriggerPump, blankBlock, []⟩ 26
  have hidle : threeTriggerRun 172796 = threeTriggerRun 26 := by
    unfold threeTriggerRun
    rw [show (172796 : Nat) = 26 + 172770 from rfl, pollState_add]
    apply pollState_idle _ _ _ _ _ hoff
    intro j hj slot hslot
    rw [htrig.1] at hslot
    rw [htrig.2]
    have hslot3 : slot < 3 := hslot
    cases hb : IsTimeInRange (threeTriggerPump.triggerTimes slot)
        (wallSample 32401 (1 + 26 + j)) (wallSample 32401 (1 + 26 + j + 1)) with
    | false => rfl
    | true =>
      exfalso
      rw [IsTimeInRange_iff] at hb
      have e0 : (⟨9, 0, 0⟩ : Time) = timeOfDay 32400 := by decide
      have e4 : (⟨9, 0, 4⟩ : Time) = timeOfDay 32404 := by decide
      have e9 : (⟨9, 0, 9⟩ : Time) = timeOfDay 32409 := by decide
      have key : ∀ c : Nat, c < 86400 →
          (timeOfDay c = wallSample 32401 (1 + 26 + j) ∨
            timeOfDay c = wallSample 32401 (1 + 26 + j + 1)) →
          c = (32401 + (1 + 26 + j) / 2) % 86400 ∨
            c = (32401 + (1 + 26 + j + 1) / 2) % 86400 := by
        intro c hc h
        rcases h with h | h
        · exact Or.inl (timeOfDay_inj _ _ hc (Nat.mod_lt _ (by norm_num)) h)
        · exact Or.inr (timeOfDay_inj _ _ hc (Nat.mod_lt _ (by norm_num)) h)
      interval_cases slot
      · have := key 32400 (by norm_num) (by rw [← e0]; exact hb)
        omega
      · have := key 32404 (by norm_num) (by rw [← e4]; exact hb)
        omega
      · have := key 32409 (by norm_num) (by rw [← e9]; exact hb)
        omega
  have h14 : threeTriggerRun 172814 =
      pollState 0 32401 halfSecond (1 + 172796) (threeTriggerRun 26) 18 := by
    rw [← hidle]
    unfold threeTriggerRun
    rw [show (172814 : Nat) = 172796 + 18 from rfl, pollState_add]
  have h15 : threeTriggerRun 172815 =
      pollState 0 32401 halfSecond (1 + 172796) (threeTriggerRun 26) 19 := by
    rw [← hidle]
    unfold threeTriggerRun
    rw [show (172815 : Nat) = 172796 + 19 from rfl, pollState_add]
  rw [h14, h15]
  refine ⟨by decide, by decide, by decide, by decide, by decide, by decide, by decide,
    by decide⟩

/-- C17 (amended): in a run polled every 500 ms with every delta worth 500 ms
and every second sampled by two consecutive polls, for a pump with duration
above 500 ms: once poll `n1 + 1` has activated the pump while time of day `T`
equalled its previous or current sample, no later poll among the following
172797 polls (24 hours less 1.5 seconds) activates the pump while `T` equals
that poll's previous or current sample. -/
theorem no_retrigger_same_occurrence (i start k0 : Nat) (delta : Nat → Timespec)
    (s0 : Sched) (T : Time) (n1 n2 : Nat)
    (hD : 500 < s0.pd.durationMs)
    (hdelta : ∀ k, 0 ≤ (delta k).tv_sec ∧ 0 ≤ (delta k).tv_nsec ∧
      (delta k).tv_sec.toNat * 1000 + (delta k).tv_nsec.toNat / 1000000 = 500)
    (h12 : n1 < n2) (hwin : n2 ≤ n1 + 172797)
    (hoff1 : (pollState i start delta k0 s0 n1).pd.enabled = false)
    (hon1 : (pollState i start delta k0 s0 (n1 + 1)).pd.enabled = true)
    (hT1 : T = wallSample start (k0 + n1) ∨ T = wallSample start (k0 + n1 + 1))
    (hT2 : T = wallSample start (k0 + n2) ∨ T = wallSample start (k0 + n2 + 1)) :
    ¬ ((pollState i start delta k0 s0 n2).pd.enabled = false ∧
       (pollState i start delta k0 s0 (n2 + 1)).pd.enabled = true) := by
  have hclose : k0 + n2 ≤ k0 + n1 + 2 :=
    same_occurrence start (k0 + n1) (k0 + n2) T (by omega) (by omega) hT1 hT2
  have hzero : (pollState i start delta k0 s0 (n1 + 1)).pd.elapsedMs = 0 :=
    pumpBody_activation_zero i _ _ _ (pollState i start delta k0 s0 n1) hoff1 hon1
  have hdur : 500 < (pollState i start delta k0 s0 (n1 + 1)).pd.durationMs := by
    rw [pollState_durationMs]; exact hD
  have hon2 : (pollState i start delta k0 s0 (n1 + 1 + 1)).pd.enabled = true :=
    pumpBody_stays_active i _ _ (delta (k0 + (n1 + 1) + 1))
      (pollState i start delta k0 s0 (n1 + 1)) hon1 hzero hdur
      (hdelta _).1 (hdelta _).2.1 (hdelta _).2.2
  rintro ⟨hoff2, _⟩
  have hcases : n2 = n1 + 1 ∨ n2 = n1 + 1 + 1 := by omega
  rcases hcases with e | e
  · rw [e, hon1] at hoff2; exact absurd hoff2 (by decide)
  · rw [e, hon2] at hoff2; exact absurd hoff2 (by decide)

/-- Witness of C17 (amended) in the run of the three-trigger pump: poll 16
activates it while 09:00:09 is its current sample, poll 17 still has 09:00:09
as previous sample and does not activate it. -/
theorem no_retrigger_same_occurrence_witness :
    500 < threeTriggerPump.durationMs ∧
    (∀ k, 0 ≤ (halfSecond k).tv_sec ∧ 0 ≤ (halfSecond k).tv_nsec ∧
      (halfSecond k).tv_sec.toNat * 1000 + (halfSecond k).tv_nsec.toNat / 1000000 = 500) ∧
    15 < 16 ∧ 16 ≤ 15 + 172797 ∧
    (threeTriggerRun 15).pd.enabled = false ∧
    (threeTriggerRun (15 + 1)).pd.enabled = true ∧
    ((⟨9, 0, 9⟩ : Time) = wallSample 32401 (1 + 15) ∨
      (⟨9, 0, 9⟩ : Time) = wallSample 32401 (1 + 15 + 1)) ∧
    ((⟨9, 0, 9⟩ : Time) = wallSample 32401 (1 + 16) ∨
      (⟨9, 0, 9⟩ : Time) = wallSample 32401 (1 + 16 + 1)) ∧
    ¬ ((threeTriggerRun 16).pd.enabled = false ∧
       (threeTriggerRun (16 + 1)).pd.enabled = true) :=
  ⟨by decide,
   (fun _ => (show (0 : Int) ≤ 0 ∧ (0 : Int) ≤ 500000000 ∧
       (0 : Int).toNat * 1000 + (500000000 : Int).toNat / 1000000 = 500 from by decide)),
   by decide, by decide, by decide, by decide,
   by decide, by decide,
   no_retrigger_same_occurrence 0 32401 1 halfSecond ⟨threeTriggerPump, blankBlock, []⟩
     ⟨9, 0, 9⟩ 15 16 (by decide)
     (fun _ => (show (0 : Int) ≤ 0 ∧ (0 : Int) ≤ 500000000 ∧
       (0 : Int).toNat * 1000 + (500000000 : Int).toNat / 1000000 = 500 from by decide))
     (by decide) (by decide)
     (by decide) (by decide) (by decide) (by decide)⟩

/-! ## The loop of `main` as runs of single pumps -/

theorem pumpRun_pd_own (i i2 : Nat) (steps : List (Time × Time × Timespec)) :
    ∀ (pd : PumpData) (p p2 : Peripheral) (out out2 : List Msg),
      (pumpRun i steps ⟨pd, p, out⟩).pd = (pumpRun i2 steps ⟨pd, p2, out2⟩).pd := by
  induction steps with
  | nil => intro pd p p2 out out2; rfl
  | cons step rest ih =>
    intro pd p p2 out out2
    simp only [pumpRun]
    have h := pumpBody_pd_own i i2 step.1 step.2.1 step.2.2 pd p p2 out out2
    have e1 : pumpBody i step.1 step.2.1 step.2.2 ⟨pd, p, out⟩ =
        ⟨(pumpBody i step.1 step.2.1 step.2.2 ⟨pd, p, out⟩).pd,
         (pumpBody i step.1 step.2.1 step.2.2 ⟨pd, p, out⟩).p,
         (pumpBody i step.1 step.2.1 step.2.2 ⟨pd, p, out⟩).out⟩ := rfl
    have e2 : pumpBody i2 step.1 step.2.1 step.2.2 ⟨pd, p2, out2⟩ =
        ⟨(pumpBody i2 step.1 step.2.1 step.2.2 ⟨pd, p2, out2⟩).pd,
         (pumpBody i2 step.1 step.2.1 step.2.2 ⟨pd, p2, out2⟩).p,
         (pumpBody i2 step.1 step.2.1 step.2.2 ⟨pd, p2, out2⟩).out⟩ := rfl
    rw [e1, e2, h]
    exact ih _ _ _ _ _

/-- While the exit pin reads low, the pump records the loop of `main` leaves
are the runs of the single pumps over the steps the inputs give. -/
theorem loop_pumps_pumpRun (inputs : List Input) :
    ∀ s : LoopState,
      (∀ inp ∈ inputs,
        decide ((inp.levExit &&& ((1 <<< PIN_EXIT) % UINT_RANGE)) ≠ 0) = false) →
      (loop inputs s).2 = false ∧
      (loop inputs s).1.pumpData =
        s.pumpData.map
          (fun pd => (pumpRun 0 (stepsOf s.t s.ts inputs) ⟨pd, blankBlock, []⟩).pd) := by
  induction inputs with
  | nil =>
    intro s _
    refine ⟨rfl, ?_⟩
    simp only [loop, stepsOf, pumpRun, List.map_id']
  | cons inp rest ih =>
    intro s h
    have hx : (ReadPin (hwLevel s.p inp.levExit) PIN_EXIT).1 = false := by
      rw [ReadPin_hwLevel]; exact h inp (List.mem_cons_self inp rest)
    simp only [loop, iteration, hx, Bool.false_eq_true, if_false]
    obtain ⟨h1, h2⟩ := ih
      { pumpData := (pumpLoop s.t inp.t (tsDiff inp.ts s.ts) 0 s.pumpData
          (if (ReadPin (hwLevel (ReadPin (hwLevel s.p inp.levExit) PIN_EXIT).2
              inp.levPing) PIN_PING_IN).1 = true
            then SetPin (ReadPin (hwLevel (ReadPin (hwLevel s.p inp.levExit) PIN_EXIT).2
              inp.levPing) PIN_PING_IN).2 PIN_PING_OUT
            else ClearPin (ReadPin (hwLevel (ReadPin (hwLevel s.p inp.levExit) PIN_EXIT).2
              inp.levPing) PIN_PING_IN).2 PIN_PING_OUT) s.out).1,
        p := (pumpLoop s.t inp.t (tsDiff inp.ts s.ts) 0 s.pumpData
          (if (ReadPin (hwLevel (ReadPin (hwLevel s.p inp.levExit) PIN_EXIT).2
              inp.levPing) PIN_PING_IN).1 = true
            then SetPin (ReadPin (hwLevel (ReadPin (hwLevel s.p inp.levExit) PIN_EXIT).2
              inp.levPing) PIN_PING_IN).2 PIN_PING_OUT
            else ClearPin (ReadPin (hwLevel (ReadPin (hwLevel s.p inp.levExit) PIN_EXIT).2
              inp.levPing) PIN_PING_IN).2 PIN_PING_OUT) s.out).2.1,
        t := inp.t, ts := inp.ts,
        out := (pumpLoop s.t inp.t (tsDiff inp.ts s.ts) 0 s.pumpData
          (if (ReadPin (hwLevel (ReadPin (hwLevel s.p inp.levExit) PIN_EXIT).2
              inp.levPing) PIN_PING_IN).1 = true
            then SetPin (ReadPin (hwLevel (ReadPin (hwLevel s.p inp.levExit) PIN_EXIT).2
              inp.levPing) PIN_PING_IN).2 PIN_PING_OUT
            else ClearPin (ReadPin (hwLevel (ReadPin (hwLevel s.p inp.levExit) PIN_EXIT).2
              inp.levPing) PIN_PING_IN).2 PIN_PING_OUT) s.out).2.2 }
      (fun x hx2 => h x (List.mem_cons_of_mem inp hx2))
    refine ⟨h1, ?_⟩
    rw [h2]
    simp only [pumpLoop_own, List.map_map, stepsOf, pumpRun]
    apply List.map_congr_left
    intro pd _
    simp only [Function.comp]
    exact pumpRun_pd_own 0 0 _ _ _ _ _ _

/-- The steps of `pollInputs` are those of `pollState`. -/
theorem pumpRun_pollInputs (i start : Nat) (mono : Nat → Timespec) (n : Nat) :
    ∀ (k0 : Nat) (s : Sched),
      pumpRun i (stepsOf (wallSample start k0) (mono k0) (pollInputs start mono k0 n)) s =
        pollState i start (fun k => tsDiff (mono k) (mono (k - 1))) k0 s n := by
  induction n with
  | zero => intro k0 s; rfl
  | succ n ih =>
    intro k0 s
    have e : pollState i start (fun k => tsDiff (mono k) (mono (k - 1))) k0 s (n + 1) =
        pollState i start (fun k => tsDiff (mono k) (mono (k - 1))) (k0 + 1)
          (pollState i start (fun k => tsDiff (mono k) (mono (k - 1))) k0 s 1) n := by
      rw [show n + 1 = 1 + n from Nat.add_comm n 1, pollState_add]
    rw [e]
    simp only [pollInputs, stepsOf, pumpRun]
    rw [ih (k0 + 1)]
    rfl

theorem pollInputs_exit_low (start : Nat) (mono : Nat → Timespec) (n : Nat) :
    ∀ k0 : Nat, ∀ inp ∈ pollInputs start mono k0 n,
      decide ((inp.levExit &&& ((1 <<< PIN_EXIT) % UINT_RANGE)) ≠ 0) = false := by
  induction n with
  | zero => intro k0 inp h; exact absurd h (List.not_mem_nil inp)
  | succ n ih =>
    intro k0 inp h
    simp only [pollInputs, List.mem_cons] at h
    rcases h with e | h
    · rw [e]
      show decide ((0 &&& ((1 <<< PIN_EXIT) % UINT_RANGE)) ≠ 0) = false
      decide
    · exact ih (k0 + 1) inp h

/-- The loop of `main`, entered with the samples of half-second `k0` and run on
`n` polls 500 ms apart, leaves for every pump the record `pollState` gives. -/
theorem loop_pollInputs (start : Nat) (mono : Nat → Timespec) (k0 n : Nat)
    (s : LoopState) (ht : s.t = wallSample start k0) (hts : s.ts = mono k0) :
    (loop (pollInputs start mono k0 n) s).2 = false ∧
    (loop (pollInputs start mono k0 n) s).1.pumpData =
      s.pumpData.map (fun pd =>
        (pollState 0 start (fun k => tsDiff (mono k) (mono (k - 1))) k0
          ⟨pd, blankBlock, []⟩ n).pd) := by
  obtain ⟨h1, h2⟩ := loop_pumps_pumpRun (pollInputs start mono k0 n) s
    (pollInputs_exit_low start mono n k0)
  refine ⟨h1, ?_⟩
  rw [h2, ht, hts]
  apply List.map_congr_left
  intro pd _
  rw [pumpRun_pollInputs]

end Irrigation
